import Mathlib

/-!
Verification of the ecosystem-simulation core: a shallow embedding of the
terrain generator, tile/world model, plant spawner and creature lifecycle
engine, with theorems checking the specification claims against it.

Modelling conventions:
- Python floats are modelled as exact rationals.  All arithmetic the code
  performs on them (+, -, *, /, min, max, comparisons) is embedded exactly.
- The transcendental library calls (math.cos, math.exp, math.sqrt) and the
  seeded Mersenne-Twister stream of random.Random(seed) are modelled as
  explicit deterministic function parameters gathered in MathOracle; the
  stream is a deterministic function of the seed, exactly as in CPython.
- Python 2D lists are modelled as a total function from coordinates
  together with explicit width/height bounds; all grids in the program are
  rectangular and only in-bounds cells are ever read.
-/

namespace EcoSim

/-! ## Configuration constants (src/config.py) -/

def TERRAIN_SEED : Int := 42

def SEA_LEVEL : ℚ := 35/100

def FERTILITY_MAX_DISTANCE : Nat := 15

def FERTILITY_FALLOFF_RATE : ℚ := 8/100

def MIN_FERTILITY : ℚ := 1/10

def MAX_FERTILITY : ℚ := 1

def BASE_SPAWN_PROBABILITY : ℚ := 8/100

def FERTILITY_SPAWN_MULTIPLIER : ℚ := 3

def GRID_WIDTH : Int := 100

def GRID_HEIGHT : Int := 100

/-! ## Creature model (src/models/creature.py) -/

inductive Gender where
  | male
  | female
deriving DecidableEq, Repr

inductive LifeStage where
  | newborn
  | adult
deriving DecidableEq, Repr

structure Creature where
  x : Int
  y : Int
  gender : Gender
  lifeStage : LifeStage
  age : Nat
  plantsEaten : Nat
  energy : ℚ
  isAlive : Bool
  offspringCount : Nat
  reproductionCooldown : Nat
  reproductionCooldownMax : Nat
deriving DecidableEq, Repr

namespace Creature

def PLANTS_TO_GROW : Nat := 5

def PLANTS_TO_REPRODUCE : Nat := 10

def REPRODUCTION_RANGE : Nat := 3

def MAX_AGE : Nat := 1000

def ENERGY_LOSS_PER_TICK : ℚ := 1/2

def ENERGY_FROM_PLANT : ℚ := 20

def MAX_ENERGY : ℚ := 100

def STARVATION_THRESHOLD : ℚ := 0

/-- Creature.__init__: starts with age 0, plants_eaten 0, energy 50.0,
alive, no offspring, zero cooldown, cooldown maximum 50. -/
def init (x y : Int) (gender : Gender) (lifeStage : LifeStage) : Creature :=
  { x := x, y := y, gender := gender, lifeStage := lifeStage
    age := 0, plantsEaten := 0, energy := 50, isAlive := true
    offspringCount := 0, reproductionCooldown := 0, reproductionCooldownMax := 50 }

/-- Creature.update: per-tick state machine.  Dead creatures are untouched;
otherwise age increments and energy drops, then starvation and old-age death
checks (early return), then newborn growth, then cooldown decrement. -/
def update (c : Creature) : Creature :=
  if c.isAlive = false then c
  else
    let c1 : Creature := { c with age := c.age + 1, energy := c.energy - ENERGY_LOSS_PER_TICK }
    if c1.energy ≤ STARVATION_THRESHOLD then { c1 with isAlive := false }
    else if MAX_AGE ≤ c1.age then { c1 with isAlive := false }
    else
      let c2 : Creature :=
        if c1.lifeStage = LifeStage.newborn ∧ PLANTS_TO_GROW ≤ c1.plantsEaten then
          { c1 with lifeStage := LifeStage.adult }
        else c1
      if 0 < c2.reproductionCooldown then
        { c2 with reproductionCooldown := c2.reproductionCooldown - 1 }
      else c2

/-- Creature.eat_plant. -/
def eatPlant (c : Creature) : Creature :=
  { c with plantsEaten := c.plantsEaten + 1
           energy := min (c.energy + ENERGY_FROM_PLANT) MAX_ENERGY }

/-- Creature.can_reproduce. -/
def canReproduce (c : Creature) : Bool :=
  c.isAlive && c.lifeStage == LifeStage.adult &&
    decide (PLANTS_TO_REPRODUCE ≤ c.plantsEaten) && c.reproductionCooldown == 0

/-- Creature.reproduce_with: mutual-eligibility re-validation. -/
def reproduceWith (c partner : Creature) : Bool :=
  if ¬ (c.canReproduce = true ∧ partner.canReproduce = true) then false
  else if c.gender = partner.gender then false
  else if REPRODUCTION_RANGE < (c.x - partner.x).natAbs + (c.y - partner.y).natAbs then false
  else true

/-- Creature.consume_reproduction_resources.  Nat subtraction is exactly
the max(0, plants_eaten - PLANTS_TO_REPRODUCE) floor of the source. -/
def consumeReproductionResources (c : Creature) : Creature :=
  { c with plantsEaten := c.plantsEaten - PLANTS_TO_REPRODUCE
           reproductionCooldown := c.reproductionCooldownMax
           offspringCount := c.offspringCount + 1 }

/-- Creature.move_towards: one sign-based step per axis, clamped to bounds. -/
def moveTowards (c : Creature) (targetX targetY gridWidth gridHeight : Int) : Creature :=
  if c.isAlive = false then c
  else
    let dx : Int := if targetX = c.x then 0 else if c.x < targetX then 1 else -1
    let dy : Int := if targetY = c.y then 0 else if c.y < targetY then 1 else -1
    { c with x := max 0 (min (c.x + dx) (gridWidth - 1))
             y := max 0 (min (c.y + dy) (gridHeight - 1)) }

end Creature

/-! ## Plant model (src/models/plant.py) -/

structure Plant where
  x : Int
  y : Int
  age : Nat
  health : Nat
deriving DecidableEq, Repr

namespace Plant

def init (x y : Int) : Plant := { x := x, y := y, age := 0, health := 100 }

def update (p : Plant) : Plant := { p with age := p.age + 1 }

end Plant

/-! ## Tile model (src/models/tile.py)

The WaterTile/LandTile class hierarchy is a closed two-variant type.  Both
variants inherit the has_plant flag from the Tile base class. -/

inductive Tile where
  | water (x y : Int) (hasPlant : Bool)
  | land (x y : Int) (fertility : ℚ) (hasPlant : Bool)
deriving DecidableEq, Repr

namespace Tile

/-- WaterTile(x, y). -/
def mkWater (x y : Int) : Tile := .water x y false

/-- LandTile(x, y, fertility): the constructor clamps fertility to [0, 1]. -/
def mkLand (x y : Int) (fertility : ℚ) : Tile :=
  .land x y (max 0 (min 1 fertility)) false

def x : Tile → Int
  | .water x _ _ => x
  | .land x _ _ _ => x

def y : Tile → Int
  | .water _ y _ => y
  | .land _ y _ _ => y

def hasPlant : Tile → Bool
  | .water _ _ hp => hp
  | .land _ _ _ hp => hp

def setHasPlant : Tile → Bool → Tile
  | .water x y _, b => .water x y b
  | .land x y f _, b => .land x y f b

def isLand : Tile → Bool
  | .water _ _ _ => false
  | .land _ _ _ _ => true

def isWater : Tile → Bool
  | .water _ _ _ => true
  | .land _ _ _ _ => false

/-- Tile.can_support_plant: water never, land iff unoccupied. -/
def canSupportPlant : Tile → Bool
  | .water _ _ _ => false
  | .land _ _ _ hp => !hp

/-- LandTile.get_fertility.  Only ever called on land tiles; on water we
return 0 (the method does not exist there). -/
def getFertility : Tile → ℚ
  | .water _ _ _ => 0
  | .land _ _ f _ => f

end Tile

/-! ## Grid and World (src/models/world.py)

A Python 2D row-major list of tiles is modelled as a total function from
(x, y) together with the list dimensions; the program builds rectangular
grids and reads only in-bounds cells. -/

structure Grid where
  width : Nat
  height : Nat
  tile : Nat → Nat → Tile

structure World where
  grid : Grid
  plants : List Plant
  creatures : List Creature
  simulationTicks : Nat
  maxPlants : Nat
  maxCreatures : Nat

namespace World

/-- World.__init__ with an empty grid (self.grid = []). -/
def init (maxPlants : Nat := 200) (maxCreatures : Nat := 50) : World :=
  { grid := { width := 0, height := 0, tile := fun _ _ => Tile.water 0 0 false }
    plants := [], creatures := [], simulationTicks := 0
    maxPlants := maxPlants, maxCreatures := maxCreatures }

def setTerrain (w : World) (g : Grid) : World := { w with grid := g }

/-- World.get_tile: the source checks that self.grid is non-empty, then
0 <= y < len(grid) and 0 <= x < len(grid[0]). -/
def getTile (w : World) (x y : Int) : Option Tile :=
  if 0 < w.grid.height ∧ 0 ≤ y ∧ y < (w.grid.height : Int) ∧ 0 ≤ x ∧ x < (w.grid.width : Int)
  then some (w.grid.tile x.toNat y.toNat)
  else none

/-- Mutation of the has_plant flag of the tile object stored at (x, y). -/
def setTileHasPlant (w : World) (x y : Int) (b : Bool) : World :=
  { w with grid :=
      { w.grid with tile := fun a c =>
          if (a : Int) = x ∧ (c : Int) = y then (w.grid.tile a c).setHasPlant b
          else w.grid.tile a c } }

/-- World.add_plant: capacity check, then tile lookup and occupancy check;
on success append the plant and set the tile flag. -/
def addPlant (w : World) (p : Plant) : World × Bool :=
  if w.maxPlants ≤ w.plants.length then (w, false)
  else
    match w.getTile p.x p.y with
    | some t =>
        if t.canSupportPlant then
          ({ w.setTileHasPlant p.x p.y true with plants := w.plants ++ [p] }, true)
        else (w, false)
    | none => (w, false)

/-- World.remove_plant: if the plant is present, clear its tile flag (when
the tile lookup succeeds) and remove the first matching list entry. -/
def removePlant (w : World) (p : Plant) : World × Bool :=
  if p ∈ w.plants then
    let w1 :=
      match w.getTile p.x p.y with
      | some _ => w.setTileHasPlant p.x p.y false
      | none => w
    ({ w1 with plants := w1.plants.erase p }, true)
  else (w, false)

/-- World.add_creature: capacity check then append. -/
def addCreature (w : World) (c : Creature) : World × Bool :=
  if w.maxCreatures ≤ w.creatures.length then (w, false)
  else ({ w with creatures := w.creatures ++ [c] }, true)

/-- World.update: age every plant and advance the tick counter. -/
def update (w : World) : World :=
  { w with plants := w.plants.map Plant.update
           simulationTicks := w.simulationTicks + 1 }

/-- The plant_count field of World.get_statistics: the empty-grid early
return reports 0, otherwse len(self.plants). -/
def statsPlantCount (w : World) : Nat :=
  if w.grid.height = 0 then 0 else w.plants.length

end World

/-- How many plants of a list lie at the coordinates (x, y). -/
def countAt (l : List Plant) (x y : Int) : Nat :=
  l.countP fun p => p.x == x && p.y == y

/-- The plant-occupancy consistency invariant: a tile in the grid has
has_plant = true iff exactly one plant of World.plants carries its
coordinates, and every plant sits on a land tile. -/
def OccupancyInv (w : World) : Prop :=
  (∀ x y t, w.getTile x y = some t →
    countAt w.plants x y = (if t.hasPlant then 1 else 0)) ∧
  (∀ p ∈ w.plants, ∃ t, w.getTile p.x p.y = some t ∧ t.isLand = true)

/-- A world holding a freshly generated terrain: no plants yet and no tile
flagged as occupied. -/
def FreshTerrain (w : World) : Prop :=
  w.plants = [] ∧ ∀ x y t, w.getTile x y = some t → t.hasPlant = false

/-- The operations the occupancy claim quantifies over. -/
inductive PlantOp where
  | add (p : Plant)
  | remove (p : Plant)

def applyPlantOp (w : World) : PlantOp → World
  | .add p => (w.addPlant p).1
  | .remove p => (w.removePlant p).1

/-! ## Spawn probability strategy (src/strategies/spawn_probability.py) -/

/-- FertilityBasedStrategy.calculate_probability.  The grid argument is
unused but kept for interface compatibility, as in the source. -/
def calculateProbability (t : Tile) (_grid : Grid) : ℚ :=
  if t.canSupportPlant = false then 0
  else if t.isLand = false then 0
  else min (BASE_SPAWN_PROBABILITY * (1 + t.getFertility * FERTILITY_SPAWN_MULTIPLIER)) 1

/-! ## Plant spawner (src/services/plant_spawner.py)

random.choices performs one weighted draw over the eligible tiles (all
weights are positive); which element it returns is a deterministic function
of the module RNG state, modelled by the pick parameter. -/

/-- The eligible tiles with their probabilities, scanned row-major exactly
as the source loops over world.grid. -/
def eligibleWithProb (w : World) (strat : Tile → Grid → ℚ) : List (Tile × ℚ) :=
  (List.range w.grid.height).flatMap fun y =>
    (List.range w.grid.width).filterMap fun x =>
      let t := w.grid.tile x y
      if t.canSupportPlant then
        let prob := strat t w.grid
        if 0 < prob then some (t, prob) else none
      else none

/-- PlantSpawner.attempt_spawn. -/
def attemptSpawn (w : World) (strat : Tile → Grid → ℚ) (pick : Nat) : World × Bool :=
  if w.maxPlants ≤ w.statsPlantCount then (w, false)
  else
    let elig := eligibleWithProb w strat
    if h : elig = [] then (w, false)
    else
      let totalProb := (elig.map Prod.snd).sum
      let _normalizedProbs := (elig.map Prod.snd).map (fun p => p / totalProb)
      let sel := (elig.get ⟨pick % elig.length, Nat.mod_lt _ (List.length_pos.mpr h)⟩).fst
      w.addPlant (Plant.init sel.x sel.y)

/-! ## Reproduction resolution (src/services/creature_manager.py)

CreatureManager._process_reproductions.  Creature objects are identified by
their index in world.creatures (indices are stable: the pass only appends
newborns).  The _reproduction_partner dynamic attribute is the pending side
table index -> Option index; processed_pairs is the list of sorted index
pairs; id()-sorted pair keys become (min i j, max i j).  The module-level
random stream is a function draw-counter -> Nat; randint(a, b) is
a + draw % (b - a + 1) and random.choice over two genders uses draw % 2,
which reproduces exactly the ranges the CPython calls can return. -/

structure ReproState where
  world : World
  pending : Nat → Option Nat
  processed : List (Nat × Nat)
  rng : Nat → Nat
  rpos : Nat

def pairKey (i j : Nat) : Nat × Nat := (min i j, max i j)

def drawNat (s : ReproState) : Nat × ReproState :=
  (s.rng s.rpos, { s with rpos := s.rpos + 1 })

/-- Spawn one baby: baby_x, baby_y with random.randint(-1, 1) jitter on the
floor-division midpoint, clamped to grid bounds, then a random gender. -/
def makeBaby (cx cy px py : Int) (s : ReproState) : Creature × ReproState :=
  let r1 := drawNat s
  let jitterX : Int := -1 + (r1.1 % 3 : Nat)
  let r2 := drawNat r1.2
  let jitterY : Int := -1 + (r2.1 % 3 : Nat)
  let r3 := drawNat r2.2
  let gender := if r3.1 % 2 = 0 then Gender.male else Gender.female
  let babyX := max 0 (min ((cx + px).fdiv 2 + jitterX) (GRID_WIDTH - 1))
  let babyY := max 0 (min ((cy + py).fdiv 2 + jitterY) (GRID_HEIGHT - 1))
  (Creature.init babyX babyY gender LifeStage.newborn, r3.2)

/-- The offspring loop: each baby is added through World.add_creature
(capacity-checked, silently dropped when full). -/
def spawnBabies (numOffspring : Nat) (cx cy px py : Int) (s : ReproState) : ReproState :=
  match numOffspring with
  | 0 => s
  | n + 1 =>
      let b := makeBaby cx cy px py s
      let w1 := (b.2.world.addCreature b.1).1
      spawnBabies n cx cy px py { b.2 with world := w1 }

/-- One iteration of the _process_reproductions loop body, for the creature
at index i.  Note the two continue paths: a missing pending link does
nothing, and an already-processed pair skips the delattr, so its pending
link survives the pass, exactly as in the source. -/
def stepRepro (s : ReproState) (i : Nat) : ReproState :=
  match s.pending i with
  | none => s
  | some j =>
      if pairKey i j ∈ s.processed then s
      else
        match s.world.creatures.get? i, s.world.creatures.get? j with
        | some ci, some cj =>
            if ci.reproduceWith cj then
              let r0 := drawNat s
              let numOffspring := 1 + r0.1 % 3
              let s2 := spawnBabies numOffspring ci.x ci.y cj.x cj.y r0.2
              let newCreatures :=
                (s2.world.creatures.set i ci.consumeReproductionResources).set j
                  cj.consumeReproductionResources
              { s2 with
                world := { s2.world with creatures := newCreatures }
                processed := s2.processed ++ [pairKey i j]
                pending := fun k => if k = i then none else s2.pending k }
            else { s with pending := fun k => if k = i then none else s.pending k }
        | _, _ =>
            -- A partner object that is no longer in world.creatures is dead
            -- (creatures are only removed once is_alive is false), so the
            -- re-validation fails and only the delattr happens.
            { s with pending := fun k => if k = i then none else s.pending k }

/-- CreatureManager._process_reproductions.  The Python loop iterates over
world.creatures while newborns are appended to it; appended newborns never
carry a pending link, so visiting them is a no-op and folding over the
initial index range is observationally the same loop. -/
def processReproductions (w : World) (pending : Nat → Option Nat) (rng : Nat → Nat) :
    World × List (Nat × Nat) :=
  let final := (List.range w.creatures.length).foldl stepRepro
    { world := w, pending := pending, processed := [], rng := rng, rpos := 0 }
  (final.world, final.processed)

/-! ## World operations for the capacity invariant

Every mutation of World.plants or World.creatures in the program goes
through one of these operations: the spawner path, direct add/remove, the
per-tick plant aging, the dead-creature filter at the top of
CreatureManager.update_creatures, and the deferred reproduction pass. -/

inductive Op where
  | addPlant (p : Plant)
  | removePlant (p : Plant)
  | addCreature (c : Creature)
  | tickWorld
  | filterDead
  | attemptSpawn (strat : Tile → Grid → ℚ) (pick : Nat)
  | resolveReproductions (pending : Nat → Option Nat) (rng : Nat → Nat)

def applyOp (w : World) : Op → World
  | .addPlant p => (w.addPlant p).1
  | .removePlant p => (w.removePlant p).1
  | .addCreature c => (w.addCreature c).1
  | .tickWorld => w.update
  | .filterDead => { w with creatures := w.creatures.filter (·.isAlive) }
  | .attemptSpawn strat pick => (attemptSpawn w strat pick).1
  | .resolveReproductions pending rng => (processReproductions w pending rng).1

def applyOps (w : World) (ops : List Op) : World := ops.foldl applyOp w

/-! ## Terrain generator (src/services/terrain_generator.py)

Heightmaps and fertility maps (Python 2D float lists) are total functions
from (x, y); the program reads and writes only in-bounds cells.  The
transcendental calls and the seeded per-instance random.Random stream are
the MathOracle parameters; everything else is embedded exactly. -/

/-- A 2D float array, addressed as m x y (the source indexes map[y][x]). -/
def Map2 : Type := Nat → Nat → ℚ

def Map2.set (m : Map2) (x y : Nat) (v : ℚ) : Map2 :=
  fun a b => if a = x ∧ b = y then v else m a b

/-- The deterministic mathematical functions the generator calls, plus the
seeded stream of random.Random(seed): draws are a pure function of the seed
and the draw counter, exactly as for CPython's Mersenne Twister. -/
structure MathOracle where
  cosFn : ℚ → ℚ
  expFn : ℚ → ℚ
  sqrtFn : ℚ → ℚ
  rngInt : Int → Nat → Nat

/-- The IEEE-754 double value of math.pi, as an exact rational. -/
def piFloat : ℚ := 884279719003555/281474976710656

/-- TerrainGeneratorFactory._random_value: the integer hash of coordinates
and seed.  Python ints are unbounded with two's-complement bitwise
semantics; since the final mask keeps the low 31 bits and shift, xor,
multiply and add all commute with taking the low 31 bits, we reduce mod
2^31 before the xor (emod of a negative Int is exactly the Python %). -/
def randomValue (seed x y : Int) : ℚ :=
  let n : Int := (x + seed) + (y + seed) * 57
  let nShift : Nat := ((n * 8192) % (2 ^ 31 : Int)).toNat
  let nLow : Nat := (n % (2 ^ 31 : Int)).toNat
  let n2 : Nat := nShift ^^^ nLow
  let n3 : Nat := (n2 * (n2 * n2 * 15731 + 789221) + 1376312589) % (2 ^ 31)
  1 - (n3 : ℚ) / 1073741824

/-- TerrainGeneratorFactory._interpolate: cosine interpolation. -/
def interpolate (O : MathOracle) (a b t : ℚ) : ℚ :=
  let ft := t * piFloat
  let f := (1 - O.cosFn ft) / 2
  a * (1 - f) + b * f

/-- Python int() truncates toward zero. -/
def pyInt (q : ℚ) : Int := if 0 ≤ q then q.floor else q.ceil

/-- TerrainGeneratorFactory._smooth_noise. -/
def smoothNoise (O : MathOracle) (seed : Int) (x y : ℚ) : ℚ :=
  let xInt := pyInt x
  let yInt := pyInt y
  let xFrac := x - xInt
  let yFrac := y - yInt
  let v1 := randomValue seed xInt yInt
  let v2 := randomValue seed (xInt + 1) yInt
  let v3 := randomValue seed xInt (yInt + 1)
  let v4 := randomValue seed (xInt + 1) (yInt + 1)
  let i1 := interpolate O v1 v2 xFrac
  let i2 := interpolate O v3 v4 xFrac
  interpolate O i1 i2 yFrac

/-- The four (scale, amplitude) octaves. -/
def octaves : List (ℚ × ℚ) := [(8, 1), (16, 1/2), (32, 1/4), (64, 1/8)]

/-- TerrainGeneratorFactory._generate_heightmap: accumulate the octaves per
cell in order, then normalize by (value + maxPossible) / (2 * maxPossible). -/
def generateHeightmap (O : MathOracle) (seed : Int) (_width _height : Nat) : Map2 :=
  let maxPossible : ℚ := (octaves.map Prod.snd).sum
  fun x y =>
    let raw := octaves.foldl
      (fun acc sa => acc + smoothNoise O seed ((x : ℚ) / sa.1) ((y : ℚ) / sa.1) * sa.2) 0
    (raw + maxPossible) / (2 * maxPossible)

def EROSION_STRENGTH : ℚ := 2/1000

def DEPOSITION_STRENGTH : ℚ := 1/1000

def MIN_SLOPE : ℚ := 1/10000

def MAX_PATH_LENGTH : Nat := 100

/-- The (dx, dy) neighbor offsets in the order the dy-outer dx-inner loops
visit them, skipping (0, 0). -/
def neighborOffsets : List (Int × Int) :=
  [(-1, -1), (0, -1), (1, -1), (-1, 0), (1, 0), (-1, 1), (0, 1), (1, 1)]

/-- TerrainGeneratorFactory._find_lowest_neighbor: strictly-lower scan over
the in-bounds 8-neighborhood, starting from the current cell. -/
def findLowestNeighbor (hm : Map2) (width height x y : Nat) : Nat × Nat × ℚ :=
  neighborOffsets.foldl
    (fun best d =>
      let nx : Int := (x : Int) + d.1
      let ny : Int := (y : Int) + d.2
      if 0 ≤ nx ∧ nx < (width : Int) ∧ 0 ≤ ny ∧ ny < (height : Int) then
        let nh := hm nx.toNat ny.toNat
        if nh < best.2.2 then (nx.toNat, ny.toNat, nh) else best
      else best)
    (x, y, hm x y)

/-- The body of TerrainGeneratorFactory._erode_path: up to fuel steps of
the droplet loop (the source bounds the path at max_path_length = 100). -/
def erodeStep (fuel : Nat) (hm : Map2) (width height x y : Nat) (sediment : ℚ) : Map2 :=
  match fuel with
  | 0 => hm
  | fuel + 1 =>
      let currentHeight := hm x y
      let low := findLowestNeighbor hm width height x y
      let heightDiff := currentHeight - low.2.2
      if heightDiff ≤ MIN_SLOPE then
        if 0 < sediment then hm.set x y (currentHeight + sediment * DEPOSITION_STRENGTH)
        else hm
      else
        let erosionAmount := min heightDiff EROSION_STRENGTH
        let hm1 := hm.set x y (currentHeight - erosionAmount)
        let sediment1 := sediment + erosionAmount
        let next :=
          if heightDiff < EROSION_STRENGTH then
            let depositAmount := sediment1 * DEPOSITION_STRENGTH
            (hm1.set x y (hm1 x y + depositAmount), sediment1 - depositAmount)
          else (hm1, sediment1)
        if next.1 low.1 low.2.1 < SEA_LEVEL then next.1
        else erodeStep fuel next.1 width height low.1 low.2.1 next.2

/-- TerrainGeneratorFactory._erode_path: a droplet starting with no
sediment. -/
def erodePath (hm : Map2) (width height startX startY : Nat) : Map2 :=
  erodeStep MAX_PATH_LENGTH hm width height startX startY 0

/-- The droplet loop as the claim words it: on reaching a cell whose drop
to the lowest neighbor is at most the minimum slope, deposit ALL carried
sediment there and stop.  This follows the specification text; the source
instead deposits sediment * deposition_strength. -/
def erodeStepDepositAll (fuel : Nat) (hm : Map2) (width height x y : Nat) (sediment : ℚ) :
    Map2 :=
  match fuel with
  | 0 => hm
  | fuel + 1 =>
      let currentHeight := hm x y
      let low := findLowestNeighbor hm width height x y
      let heightDiff := currentHeight - low.2.2
      if heightDiff ≤ MIN_SLOPE then
        if 0 < sediment then hm.set x y (currentHeight + sediment)
        else hm
      else
        let erosionAmount := min heightDiff EROSION_STRENGTH
        let hm1 := hm.set x y (currentHeight - erosionAmount)
        let sediment1 := sediment + erosionAmount
        let next :=
          if heightDiff < EROSION_STRENGTH then
            let depositAmount := sediment1 * DEPOSITION_STRENGTH
            (hm1.set x y (hm1 x y + depositAmount), sediment1 - depositAmount)
          else (hm1, sediment1)
        if next.1 low.1 low.2.1 < SEA_LEVEL then next.1
        else erodeStepDepositAll fuel next.1 width height low.1 low.2.1 next.2

def erodePathDepositAll (hm : Map2) (width height startX startY : Nat) : Map2 :=
  erodeStepDepositAll MAX_PATH_LENGTH hm width height startX startY 0

/-- A concrete 3x1 heightmap on which a droplet started at (0, 0) walks to
(2, 0) carrying sediment 1/250 and stops there. -/
def cexHeightmap : Map2 := fun x y =>
  if y = 0 then (if x = 0 then 9/10 else if x = 1 then 8/10 else if x = 2 then 795/1000 else 0)
  else 0

/-- The heightmap after the droplet erodes (0, 0). -/
def cexMap1 : Map2 := cexHeightmap.set 0 0 (449/500)

/-- The heightmap after the droplet also erodes (1, 0). -/
def cexMap2 : Map2 := cexMap1.set 1 0 (399/500)

/-- TerrainGeneratorFactory._clamp_heightmap: clamp every cell to [0, 1]. -/
def clampHeightmap (hm : Map2) : Map2 := fun x y => max 0 (min 1 (hm x y))

/-- TerrainGeneratorFactory._apply_hydraulic_erosion: width*height/2
droplets from uniformly random cells (randint over the seeded stream),
then the final clamp. -/
def applyHydraulicErosion (O : MathOracle) (seed : Int) (hm0 : Map2) (width height : Nat) :
    Map2 :=
  let numIterations := width * height / 2
  let eroded := (List.range numIterations).foldl
    (fun hm k => erodePath hm width height (O.rngInt seed (2 * k) % width)
      (O.rngInt seed (2 * k + 1) % height)) hm0
  clampHeightmap eroded

/-- TerrainGeneratorFactory._heightmap_to_tiles_simple: water below
sea level, land (temporary fertility 0.5) otherwise. -/
def heightmapToTilesSimple (hm : Map2) (width height : Nat) : Grid :=
  { width := width, height := height
    tile := fun x y =>
      if hm x y < SEA_LEVEL then Tile.mkWater x y else Tile.mkLand x y (1/2) }

/-- The water tile coordinate list, collected row-major (y outer, x inner)
as in _calculate_fertility_map. -/
def waterPositions (g : Grid) : List (Nat × Nat) :=
  (List.range g.height).flatMap fun y =>
    (List.range g.width).filterMap fun x =>
      if (g.tile x y).isWater then some (x, y) else none

/-- The integer squared Euclidean distance fed to math.sqrt. -/
def sqDist (x y wx wy : Nat) : ℚ :=
  ((((x : Int) - wx) ^ 2 + ((y : Int) - wy) ^ 2 : Int) : ℚ)

/-- TerrainGeneratorFactory._find_nearest_water_distance_optimized: scan
the water list with the Manhattan prefilter (limit max_distance + 5) and
early exit as soon as the running minimum is at most 1.0.  None is the
initial float('inf'). -/
def findNearestAux (O : MathOracle) (x y : Nat) :
    List (Nat × Nat) → Option ℚ → Option ℚ
  | [], md => md
  | w :: rest, md =>
      if FERTILITY_MAX_DISTANCE + 5 < ((x : Int) - w.1).natAbs + ((y : Int) - w.2).natAbs then
        findNearestAux O x y rest md
      else
        let d := O.sqrtFn (sqDist x y w.1 w.2)
        let md2 := match md with
          | none => d
          | some m => min m d
        if md2 ≤ 1 then some md2 else findNearestAux O x y rest (some md2)

def findNearestWaterDistance (O : MathOracle) (x y : Nat) (waters : List (Nat × Nat)) :
    Option ℚ :=
  findNearestAux O x y waters none

/-- TerrainGeneratorFactory._distance_to_fertility.  For the infinite
distance (no water reached) math.exp(-rate * inf) is exactly 0.0 and the
clamp yields MIN_FERTILITY. -/
def distanceToFertility (O : MathOracle) : Option ℚ → ℚ
  | none => max MIN_FERTILITY (min MAX_FERTILITY (MAX_FERTILITY * 0))
  | some d =>
      if d = 0 then MAX_FERTILITY
      else max MIN_FERTILITY
        (min MAX_FERTILITY (MAX_FERTILITY * O.expFn (-FERTILITY_FALLOFF_RATE * d)))

/-- The pre-smoothing fertility map: land cells get the distance-based
fertility, everything else keeps the 0.0 initialization. -/
def baseFertilityMap (O : MathOracle) (g : Grid) : Map2 :=
  fun x y =>
    if (g.tile x y).isLand then
      distanceToFertility O (findNearestWaterDistance O x y (waterPositions g))
    else 0

/-- The 3x3 box offsets in dy-outer dx-inner order, including the center. -/
def boxOffsets : List (Int × Int) :=
  [(-1, -1), (0, -1), (1, -1), (-1, 0), (0, 0), (1, 0), (-1, 1), (0, 1), (1, 1)]

/-- The in-bounds cells of the 3x3 window around (x, y). -/
def windowCells (width height x y : Nat) : List (Nat × Nat) :=
  boxOffsets.filterMap fun d =>
    let nx : Int := (x : Int) + d.1
    let ny : Int := (y : Int) + d.2
    if 0 ≤ nx ∧ nx < (width : Int) ∧ 0 ≤ ny ∧ ny < (height : Int) then
      some (nx.toNat, ny.toNat)
    else none

/-- One box-blur pass of _smooth_fertility_map: average over the in-bounds
window (count > 0 always holds in bounds since the cell itself counts). -/
def smoothOnce (width height : Nat) (fm : Map2) : Map2 :=
  fun x y =>
    let cells := windowCells width height x y
    let total := (cells.map fun c => fm c.1 c.2).sum
    if 0 < cells.length then total / (cells.length : ℚ) else fm x y

/-- TerrainGeneratorFactory._smooth_fertility_map with its iteration
parameter (the generator uses the default of 2 passes). -/
def smoothFertilityMap (width height : Nat) (fm : Map2) (iterations : Nat := 2) : Map2 :=
  (List.range iterations).foldl (fun m _ => smoothOnce width height m) fm

/-- TerrainGeneratorFactory._calculate_fertility_map. -/
def calculateFertilityMap (O : MathOracle) (g : Grid) : Map2 :=
  smoothFertilityMap g.width g.height (baseFertilityMap O g) 2

/-- TerrainGeneratorFactory._create_tiles_with_fertility. -/
def createTilesWithFertility (hm fm : Map2) (width height : Nat) : Grid :=
  { width := width, height := height
    tile := fun x y =>
      if hm x y < SEA_LEVEL then Tile.mkWater x y else Tile.mkLand x y (fm x y) }

/-- The generator object: TerrainGeneratorFactory.__init__ stores the
effective seed (and random.Random(self.seed), whose stream the oracle
derives from that seed). -/
structure TerrainGeneratorFactory where
  seed : Int

/-- TerrainGeneratorFactory(seed): Python's `seed or config.TERRAIN_SEED`
falls back to the default when seed is None or 0 (both falsy). -/
def mkFactory : Option Int → TerrainGeneratorFactory
  | none => { seed := TERRAIN_SEED }
  | some s => { seed := if s = 0 then TERRAIN_SEED else s }

/-- TerrainGeneratorFactory.generate_terrain: the five-stage pipeline. -/
def generateTerrain (O : MathOracle) (f : TerrainGeneratorFactory) (width height : Nat) :
    Grid :=
  let hm0 := generateHeightmap O f.seed width height
  let hm := applyHydraulicErosion O f.seed hm0 width height
  let grid1 := heightmapToTilesSimple hm width height
  let fm := calculateFertilityMap O grid1
  createTilesWithFertility hm fm width height

/-- A concrete oracle used to instantiate theorems on concrete inputs: a
constant stand-in for cos, exp values at the resolution the bounds need,
the exact sqrt on the relevant arguments, and a constant stream. -/
def probeOracle : MathOracle :=
  { cosFn := fun _ => 1
    expFn := fun _ => 23/25
    sqrtFn := fun _ => 1
    rngInt := fun _ _ => 0 }

/-- A concrete 1x1 all-land world with no plants, for instantiating the
occupancy theorem. -/
def probeFreshWorld : World :=
  (World.init 10 10).setTerrain
    { width := 1, height := 1, tile := fun x y => Tile.mkLand x y (1/2) }

/-- Concrete mutually eligible adults and a pending pair, for instantiating
the reproduction theorem. -/
def probeMale : Creature :=
  { Creature.init 0 0 Gender.male LifeStage.adult with plantsEaten := 10 }

def probeFemale : Creature :=
  { Creature.init 1 0 Gender.female LifeStage.adult with plantsEaten := 12 }

def probeRepro : ReproState :=
  { world := { World.init 200 50 with creatures := [probeMale, probeFemale] }
    pending := fun k => if k = 0 then some 1 else none
    processed := []
    rng := fun _ => 0
    rpos := 0 }

/-! ## Theorems -/

/-- C7: the fertility-based spawn-probability strategy returns 0 for any
tile that cannot support a plant (water, or land already occupied), and
otherwise min(base_probability * (1 + fertility * fertility_multiplier), 1);
with the configured constants an unoccupied land tile of fertility 1 gets
probability 0.32 = 8/25. -/
theorem calculateProbability_spec (g : Grid) :
    (∀ x y hp, calculateProbability (Tile.water x y hp) g = 0) ∧
    (∀ x y f, calculateProbability (Tile.land x y f true) g = 0) ∧
    (∀ x y f, calculateProbability (Tile.land x y f false) g =
      min (BASE_SPAWN_PROBABILITY * (1 + f * FERTILITY_SPAWN_MULTIPLIER)) 1) ∧
    (∀ x y, calculateProbability (Tile.land x y 1 false) g = 8/25) := by
  refine ⟨fun x y hp => rfl, fun x y f => rfl, fun x y f => rfl, fun x y => ?_⟩
  show min (BASE_SPAWN_PROBABILITY * (1 + (1 : ℚ) * FERTILITY_SPAWN_MULTIPLIER)) 1 = 8/25
  norm_num [BASE_SPAWN_PROBABILITY, FERTILITY_SPAWN_MULTIPLIER]

/-- Closed form of the starvation scenario: with no food, iterating the
update k times (k at most 99) leaves a live newborn with age k and energy
50 - k/2. -/
theorem starvation_iterate (k : Nat) (hk : k ≤ 99) :
    Creature.update^[k] (Creature.init 0 0 Gender.male LifeStage.newborn) =
      { Creature.init 0 0 Gender.male LifeStage.newborn with
          age := k, energy := 50 - (k : ℚ)/2 } := by
  induction k with
  | zero =>
      norm_num [Creature.init]
  | succ n ih =>
      have hn : n ≤ 98 := by omega
      have hnq : (n : ℚ) ≤ 98 := by exact_mod_cast hn
      rw [Function.iterate_succ_apply', ih (by omega)]
      simp only [Creature.update, Creature.ENERGY_LOSS_PER_TICK, Creature.STARVATION_THRESHOLD,
        Creature.MAX_AGE, Creature.PLANTS_TO_GROW, Creature.init]
      split_ifs <;>
        first
          | contradiction
          | omega
          | linarith
          | (simp only [Creature.mk.injEq, Creature.init]
             norm_num
             try (push_cast; ring))

/-- C3: one tick of Creature.update on a live creature increments age and
subtracts 0.5 energy; then non-positive energy kills (and nothing else
changes that tick), else age at least 1000 kills (likewise terminal), else
a newborn with at least 5 plants eaten becomes adult and then a positive
cooldown decrements; and the lone-creature scenario: starting energy 50
with no food, the creature is alive through update 99 and dead exactly at
update 100. -/
theorem creature_update_spec :
    (∀ c : Creature, c.isAlive = true →
      ((c.update.age = c.age + 1 ∧ c.update.energy = c.energy - Creature.ENERGY_LOSS_PER_TICK) ∧
       (c.energy - Creature.ENERGY_LOSS_PER_TICK ≤ Creature.STARVATION_THRESHOLD →
         c.update = { c with age := c.age + 1
                             energy := c.energy - Creature.ENERGY_LOSS_PER_TICK
                             isAlive := false }) ∧
       (Creature.STARVATION_THRESHOLD < c.energy - Creature.ENERGY_LOSS_PER_TICK →
         Creature.MAX_AGE ≤ c.age + 1 →
         c.update = { c with age := c.age + 1
                             energy := c.energy - Creature.ENERGY_LOSS_PER_TICK
                             isAlive := false }) ∧
       (Creature.STARVATION_THRESHOLD < c.energy - Creature.ENERGY_LOSS_PER_TICK →
         c.age + 1 < Creature.MAX_AGE →
         c.update.isAlive = true ∧
         c.update.lifeStage =
           (if c.lifeStage = LifeStage.newborn ∧ Creature.PLANTS_TO_GROW ≤ c.plantsEaten then
             LifeStage.adult else c.lifeStage) ∧
         c.update.reproductionCooldown =
           (if 0 < c.reproductionCooldown then c.reproductionCooldown - 1
            else c.reproductionCooldown) ∧
         c.update.plantsEaten = c.plantsEaten ∧ c.update.x = c.x ∧ c.update.y = c.y ∧
         c.update.gender = c.gender ∧ c.update.offspringCount = c.offspringCount))) ∧
    ((∀ k, k < 100 →
        (Creature.update^[k] (Creature.init 0 0 Gender.male LifeStage.newborn)).isAlive = true) ∧
      (Creature.update^[100] (Creature.init 0 0 Gender.male LifeStage.newborn)).isAlive = false) := by
  constructor
  · intro c hAlive
    obtain ⟨cx, cy, cg, cls, cage, cpe, cen, calive, coc, crc, crcm⟩ := c
    simp only at hAlive
    subst hAlive
    simp only [Creature.update, Creature.STARVATION_THRESHOLD, Creature.MAX_AGE,
      Creature.ENERGY_LOSS_PER_TICK, Creature.PLANTS_TO_GROW]
    refine ⟨?_, ?_, ?_, ?_⟩
    · split_ifs <;> first | contradiction | simp
    · intro hstarve
      split_ifs <;> first | contradiction | rfl | linarith
    · intro hlive hold
      split_ifs <;> first | contradiction | rfl | linarith | omega
    · intro hlive hyoung
      split_ifs <;> first | contradiction | rfl | linarith | omega | simp_all
  · constructor
    · intro k hk
      rw [starvation_iterate k (by omega)]
      rfl
    · rw [show (100 : Nat) = 99 + 1 from rfl, Function.iterate_succ_apply',
        starvation_iterate 99 (by omega)]
      simp only [Creature.update, Creature.ENERGY_LOSS_PER_TICK, Creature.STARVATION_THRESHOLD,
        Creature.MAX_AGE, Creature.PLANTS_TO_GROW, Creature.init]
      norm_num

/-- C3 witness at a concrete live creature. -/
theorem creature_update_spec_witness :
    (Creature.init 2 3 Gender.female LifeStage.newborn).isAlive = true ∧
    (Creature.init 2 3 Gender.female LifeStage.newborn).update.age =
      (Creature.init 2 3 Gender.female LifeStage.newborn).age + 1 :=
  ⟨rfl, ((creature_update_spec.1 (Creature.init 2 3 Gender.female LifeStage.newborn) rfl).1).1⟩

/-- C1: terrain generation is deterministic: the pipeline consumes only the
constructor arguments, the deterministic coordinate hash and the streams
derived from the seed, so identical arguments give bit-identical grids,
with the same water/land classification and fertility at every cell. -/
theorem generate_terrain_deterministic (O : MathOracle) (s1 s2 : Option Int)
    (w1 w2 h1 h2 : Nat) (hs : s1 = s2) (hw : w1 = w2) (hh : h1 = h2) :
    generateTerrain O (mkFactory s1) w1 h1 = generateTerrain O (mkFactory s2) w2 h2 ∧
    (∀ x y, ((generateTerrain O (mkFactory s1) w1 h1).tile x y).isWater
        = ((generateTerrain O (mkFactory s2) w2 h2).tile x y).isWater ∧
      ((generateTerrain O (mkFactory s1) w1 h1).tile x y).getFertility
        = ((generateTerrain O (mkFactory s2) w2 h2).tile x y).getFertility) := by
  subst hs; subst hw; subst hh
  exact ⟨rfl, fun x y => ⟨rfl, rfl⟩⟩

/-- C1 witness at concrete arguments. -/
theorem generate_terrain_deterministic_witness :
    (some (5 : Int) = some 5) ∧
    generateTerrain probeOracle (mkFactory (some 5)) 2 2 =
      generateTerrain probeOracle (mkFactory (some 5)) 2 2 :=
  ⟨rfl, (generate_terrain_deterministic probeOracle (some 5) (some 5) 2 2 2 2 rfl rfl rfl).1⟩

/-- C10: constructing the generator with seed = 0 silently substitutes the
configured default seed 42 (Python falsiness of 0), so generation with
seed 0 is identical to generation with seed 42 at every cell. -/
theorem seed_zero_uses_default :
    (mkFactory (some 0)).seed = TERRAIN_SEED ∧
    mkFactory (some 0) = mkFactory (some 42) ∧
    (∀ O w h, generateTerrain O (mkFactory (some 0)) w h =
      generateTerrain O (mkFactory (some 42)) w h) ∧
    (∀ O w h x y, (generateTerrain O (mkFactory (some 0)) w h).tile x y =
      (generateTerrain O (mkFactory (some 42)) w h).tile x y) :=
  ⟨rfl, rfl, fun _ _ _ => rfl, fun _ _ _ _ _ => rfl⟩

/-- C8: attempt_spawn is a total function (no exception on the ordinary
negative outcomes): it returns false leaving the world unmodified when the
plant count is at capacity, returns false when no tile has nonzero spawn
probability, and otherwise draws one of the eligible tiles and adds a
plant only through the capacity- and occupancy-checked World.add_plant. -/
theorem attempt_spawn_spec (w : World) (strat : Tile → Grid → ℚ) (pick : Nat) :
    (w.maxPlants ≤ w.plants.length → attemptSpawn w strat pick = (w, false)) ∧
    (eligibleWithProb w strat = [] → attemptSpawn w strat pick = (w, false)) ∧
    (w.statsPlantCount < w.maxPlants → ∀ _hne : eligibleWithProb w strat ≠ [],
      ∃ t q, (t, q) ∈ eligibleWithProb w strat ∧
        attemptSpawn w strat pick = w.addPlant (Plant.init t.x t.y)) := by
  refine ⟨?_, ?_, ?_⟩
  · intro hcap
    by_cases hstats : w.maxPlants ≤ w.statsPlantCount
    · simp [attemptSpawn, hstats]
    · have hh : w.grid.height = 0 := by
        by_contra hne
        exact hstats (by simpa [World.statsPlantCount, hne] using hcap)
      have helig : eligibleWithProb w strat = [] := by
        simp [eligibleWithProb, hh]
      simp [attemptSpawn, helig]
  · intro helig
    by_cases hstats : w.maxPlants ≤ w.statsPlantCount
    · simp [attemptSpawn, hstats]
    · simp [attemptSpawn, helig, hstats]
  · intro hstats hne
    refine ⟨((eligibleWithProb w strat).get
        ⟨pick % (eligibleWithProb w strat).length,
          Nat.mod_lt _ (List.length_pos.mpr hne)⟩).1,
      ((eligibleWithProb w strat).get
        ⟨pick % (eligibleWithProb w strat).length,
          Nat.mod_lt _ (List.length_pos.mpr hne)⟩).2, ?_, ?_⟩
    · simpa using List.get_mem (eligibleWithProb w strat) _
    · simp [attemptSpawn, hne, Nat.not_le.mpr hstats]

/-- C8 witness: a world at plant capacity is left unchanged with a false
result. -/
theorem attempt_spawn_spec_witness :
    (World.init 0 5).maxPlants ≤ (World.init 0 5).plants.length ∧
    attemptSpawn (World.init 0 5) calculateProbability 0 = (World.init 0 5, false) :=
  ⟨Nat.le.refl, (attempt_spawn_spec (World.init 0 5) calculateProbability 0).1 Nat.le.refl⟩

/-! ### Shape lemmas for the world mutations -/

theorem addPlant_shape (w : World) (p : Plant) :
    (w.addPlant p).1 = w ∨
      (w.plants.length < w.maxPlants ∧ (w.addPlant p).1.plants = w.plants ++ [p] ∧
        (w.addPlant p).1.maxPlants = w.maxPlants ∧
        (w.addPlant p).1.maxCreatures = w.maxCreatures ∧
        (w.addPlant p).1.creatures = w.creatures) := by
  unfold World.addPlant
  split_ifs with hcap
  · exact Or.inl rfl
  · cases htile : w.getTile p.x p.y with
    | none => exact Or.inl rfl
    | some t =>
        by_cases hsup : t.canSupportPlant = true
        · exact Or.inr ⟨Nat.not_le.mp hcap, by simp [hsup, World.setTileHasPlant]⟩
        · simp only [hsup]
          exact Or.inl (by simp)

theorem addCreature_fields (w : World) (c : Creature) :
    (w.addCreature c).1.plants = w.plants ∧ (w.addCreature c).1.grid = w.grid ∧
    (w.addCreature c).1.simulationTicks = w.simulationTicks ∧
    (w.addCreature c).1.maxPlants = w.maxPlants ∧
    (w.addCreature c).1.maxCreatures = w.maxCreatures ∧
    ((w.addCreature c).1.creatures = w.creatures ∨
      (w.creatures.length < w.maxCreatures ∧
        (w.addCreature c).1.creatures = w.creatures ++ [c])) := by
  unfold World.addCreature
  split_ifs with hcap
  · exact ⟨rfl, rfl, rfl, rfl, rfl, Or.inl rfl⟩
  · exact ⟨rfl, rfl, rfl, rfl, rfl, Or.inr ⟨Nat.not_le.mp hcap, rfl⟩⟩

/-- makeBaby produces a newborn at the midpoint with unit jitter per axis,
clamped to the grid bounds, consuming only the random stream. -/
theorem makeBaby_spec (cx cy px py : Int) (s : ReproState) :
    (makeBaby cx cy px py s).2.world = s.world ∧
    (makeBaby cx cy px py s).2.pending = s.pending ∧
    (makeBaby cx cy px py s).2.processed = s.processed ∧
    ∃ jx jy : Int, -1 ≤ jx ∧ jx ≤ 1 ∧ -1 ≤ jy ∧ jy ≤ 1 ∧
      (makeBaby cx cy px py s).1 =
        Creature.init (max 0 (min ((cx + px).fdiv 2 + jx) (GRID_WIDTH - 1)))
          (max 0 (min ((cy + py).fdiv 2 + jy) (GRID_HEIGHT - 1)))
          (makeBaby cx cy px py s).1.gender LifeStage.newborn := by
  refine ⟨rfl, rfl, rfl,
    -1 + ((s.rng s.rpos % 3 : Nat) : Int), -1 + ((s.rng (s.rpos + 1) % 3 : Nat) : Int),
    ?_, ?_, ?_, ?_, rfl⟩
  · omega
  · have : s.rng s.rpos % 3 < 3 := Nat.mod_lt _ (by omega)
    omega
  · omega
  · have : s.rng (s.rpos + 1) % 3 < 3 := Nat.mod_lt _ (by omega)
    omega

/-- The offspring loop only appends newborn babies of the makeBaby shape,
touches nothing else in the state, and respects the creature capacity. -/
theorem spawnBabies_spec (n : Nat) (cx cy px py : Int) (s : ReproState) :
    ∃ babies : List Creature,
      (spawnBabies n cx cy px py s).world.creatures = s.world.creatures ++ babies ∧
      (spawnBabies n cx cy px py s).world.plants = s.world.plants ∧
      (spawnBabies n cx cy px py s).world.grid = s.world.grid ∧
      (spawnBabies n cx cy px py s).world.simulationTicks = s.world.simulationTicks ∧
      (spawnBabies n cx cy px py s).world.maxPlants = s.world.maxPlants ∧
      (spawnBabies n cx cy px py s).world.maxCreatures = s.world.maxCreatures ∧
      (spawnBabies n cx cy px py s).pending = s.pending ∧
      (spawnBabies n cx cy px py s).processed = s.processed ∧
      babies.length ≤ n ∧
      (∀ b ∈ babies, ∃ jx jy : Int, -1 ≤ jx ∧ jx ≤ 1 ∧ -1 ≤ jy ∧ jy ≤ 1 ∧
        b = Creature.init (max 0 (min ((cx + px).fdiv 2 + jx) (GRID_WIDTH - 1)))
              (max 0 (min ((cy + py).fdiv 2 + jy) (GRID_HEIGHT - 1)))
              b.gender LifeStage.newborn) ∧
      (s.world.creatures.length ≤ s.world.maxCreatures →
        (s.world.creatures ++ babies).length ≤ s.world.maxCreatures) := by
  induction n generalizing s with
  | zero =>
      exact ⟨[], by simp [spawnBabies], rfl, rfl, rfl, rfl, rfl, rfl, rfl, by simp, by simp,
        by simp⟩
  | succ n ih =>
      obtain ⟨hw, hpend, hproc, jx, jy, hjx1, hjx2, hjy1, hjy2, hbaby⟩ :=
        makeBaby_spec cx cy px py s
      set b := makeBaby cx cy px py s with hbdef
      obtain ⟨hfp, hfg, hft, hfmp, hfmc, hfc⟩ := addCreature_fields b.2.world b.1
      set w1 := (b.2.world.addCreature b.1).1 with hw1def
      obtain ⟨babies, ihc, ihp, ihg, iht, ihmp, ihmc, ihpend, ihproc, ihlen, ihshape, ihcap⟩ :=
        ih { b.2 with world := w1 }
      rcases hfc with hkeep | ⟨hlt, happ⟩
      · refine ⟨babies, ?_, ?_, ?_, ?_, ?_, ?_, ?_, ?_, by omega, ?_, ?_⟩
        · rw [show spawnBabies (n+1) cx cy px py s = spawnBabies n cx cy px py { b.2 with world := w1 } from rfl,
            ihc]
          simp [hkeep, hw]
        · rw [show spawnBabies (n+1) cx cy px py s = spawnBabies n cx cy px py { b.2 with world := w1 } from rfl,
            ihp]
          simp [hfp, hw]
        · rw [show spawnBabies (n+1) cx cy px py s = spawnBabies n cx cy px py { b.2 with world := w1 } from rfl,
            ihg]
          simp [hfg, hw]
        · rw [show spawnBabies (n+1) cx cy px py s = spawnBabies n cx cy px py { b.2 with world := w1 } from rfl,
            iht]
          simp [hft, hw]
        · rw [show spawnBabies (n+1) cx cy px py s = spawnBabies n cx cy px py { b.2 with world := w1 } from rfl,
            ihmp]
          simp [hfmp, hw]
        · rw [show spawnBabies (n+1) cx cy px py s = spawnBabies n cx cy px py { b.2 with world := w1 } from rfl,
            ihmc]
          simp [hfmc, hw]
        · rw [show spawnBabies (n+1) cx cy px py s = spawnBabies n cx cy px py { b.2 with world := w1 } from rfl,
            ihpend]
          simp [hpend]
        · rw [show spawnBabies (n+1) cx cy px py s = spawnBabies n cx cy px py { b.2 with world := w1 } from rfl,
            ihproc]
          simp [hproc]
        · exact ihshape
        · intro hcap
          have h1 : w1.creatures.length ≤ w1.maxCreatures := by
            rw [hkeep, hfmc, hw]
            exact hcap
          have := ihcap h1
          rw [hkeep, hfmc, hw] at this
          simpa [hw] using this
      · refine ⟨b.1 :: babies, ?_, ?_, ?_, ?_, ?_, ?_, ?_, ?_, by simpa using ihlen, ?_, ?_⟩
        · rw [show spawnBabies (n+1) cx cy px py s = spawnBabies n cx cy px py { b.2 with world := w1 } from rfl,
            ihc]
          simp [happ, hw]
        · rw [show spawnBabies (n+1) cx cy px py s = spawnBabies n cx cy px py { b.2 with world := w1 } from rfl,
            ihp]
          simp [hfp, hw]
        · rw [show spawnBabies (n+1) cx cy px py s = spawnBabies n cx cy px py { b.2 with world := w1 } from rfl,
            ihg]
          simp [hfg, hw]
        · rw [show spawnBabies (n+1) cx cy px py s = spawnBabies n cx cy px py { b.2 with world := w1 } from rfl,
            iht]
          simp [hft, hw]
        · rw [show spawnBabies (n+1) cx cy px py s = spawnBabies n cx cy px py { b.2 with world := w1 } from rfl,
            ihmp]
          simp [hfmp, hw]
        · rw [show spawnBabies (n+1) cx cy px py s = spawnBabies n cx cy px py { b.2 with world := w1 } from rfl,
            ihmc]
          simp [hfmc, hw]
        · rw [show spawnBabies (n+1) cx cy px py s = spawnBabies n cx cy px py { b.2 with world := w1 } from rfl,
            ihpend]
          simp [hpend]
        · rw [show spawnBabies (n+1) cx cy px py s = spawnBabies n cx cy px py { b.2 with world := w1 } from rfl,
            ihproc]
          simp [hproc]
        · intro c hc
          rcases List.mem_cons.mp hc with hbb | hbb
          · subst hbb
            exact ⟨jx, jy, hjx1, hjx2, hjy1, hjy2, hbaby⟩
          · exact ihshape c hbb
        · intro hcap
          have h1 : w1.creatures.length ≤ w1.maxCreatures := by
            rw [happ, hfmc, hw]
            simp only [List.length_append, List.length_singleton]
            rw [hw] at hlt
            omega
          have := ihcap h1
          rw [happ, hfmc, hw] at this
          simpa [hw] using this

/-- One loop iteration of the reproduction pass never touches plants, the
grid, the tick counter or the capacity bounds, and keeps the creature list
within capacity. -/
theorem stepRepro_fields (s : ReproState) (i : Nat) :
    (stepRepro s i).world.plants = s.world.plants ∧
    (stepRepro s i).world.grid = s.world.grid ∧
    (stepRepro s i).world.simulationTicks = s.world.simulationTicks ∧
    (stepRepro s i).world.maxPlants = s.world.maxPlants ∧
    (stepRepro s i).world.maxCreatures = s.world.maxCreatures ∧
    (s.world.creatures.length ≤ s.world.maxCreatures →
      (stepRepro s i).world.creatures.length ≤ s.world.maxCreatures) := by
  unfold stepRepro
  cases hp : s.pending i with
  | none => exact ⟨rfl, rfl, rfl, rfl, rfl, fun h => h⟩
  | some j =>
      dsimp only
      split_ifs with hmem
      · exact ⟨rfl, rfl, rfl, rfl, rfl, fun h => h⟩
      · cases hgi : s.world.creatures.get? i with
        | none =>
            cases hgj : s.world.creatures.get? j with
            | none => exact ⟨rfl, rfl, rfl, rfl, rfl, fun h => h⟩
            | some cj => exact ⟨rfl, rfl, rfl, rfl, rfl, fun h => h⟩
        | some ci =>
            cases hgj : s.world.creatures.get? j with
            | none => exact ⟨rfl, rfl, rfl, rfl, rfl, fun h => h⟩
            | some cj =>
                dsimp only [drawNat]
                split_ifs with hrw
                · obtain ⟨babies, hc, hpl, hg, ht, hmp, hmc, _, _, _, _, hcap⟩ :=
                    spawnBabies_spec (1 + s.rng s.rpos % 3) ci.x ci.y cj.x cj.y
                      { s with rpos := s.rpos + 1 }
                  refine ⟨by simpa using hpl, by simpa using hg, by simpa using ht,
                    by simpa using hmp, by simpa using hmc, ?_⟩
                  intro h
                  simp only [List.length_set, hc, List.length_append]
                  have := hcap (by simpa using h)
                  simpa using this
                · exact ⟨rfl, rfl, rfl, rfl, rfl, fun h => h⟩

/-- The whole reproduction pass preserves the same fields. -/
theorem foldRepro_fields (l : List Nat) (s : ReproState) :
    ((l.foldl stepRepro s).world.plants = s.world.plants ∧
     (l.foldl stepRepro s).world.grid = s.world.grid ∧
     (l.foldl stepRepro s).world.simulationTicks = s.world.simulationTicks ∧
     (l.foldl stepRepro s).world.maxPlants = s.world.maxPlants ∧
     (l.foldl stepRepro s).world.maxCreatures = s.world.maxCreatures) ∧
    (s.world.creatures.length ≤ s.world.maxCreatures →
      (l.foldl stepRepro s).world.creatures.length ≤ s.world.maxCreatures) := by
  induction l generalizing s with
  | nil => exact ⟨⟨rfl, rfl, rfl, rfl, rfl⟩, fun h => h⟩
  | cons a l ih =>
      obtain ⟨hpl, hg, ht, hmp, hmc, hcap⟩ := stepRepro_fields s a
      obtain ⟨⟨ihpl, ihg, iht, ihmp, ihmc⟩, ihcap⟩ := ih (stepRepro s a)
      refine ⟨⟨by simp [List.foldl_cons, ihpl, hpl], by simp [List.foldl_cons, ihg, hg],
        by simp [List.foldl_cons, iht, ht], by simp [List.foldl_cons, ihmp, hmp],
        by simp [List.foldl_cons, ihmc, hmc]⟩, ?_⟩
      intro h
      have h1 := hcap h
      rw [← hmc] at h1
      have := ihcap h1
      rw [hmc] at this
      simpa [List.foldl_cons] using this

theorem removePlant_fields (w : World) (p : Plant) :
    ((w.removePlant p).1.plants = w.plants ∨
      (w.removePlant p).1.plants = w.plants.erase p) ∧
    (w.removePlant p).1.creatures = w.creatures ∧
    (w.removePlant p).1.maxPlants = w.maxPlants ∧
    (w.removePlant p).1.maxCreatures = w.maxCreatures := by
  unfold World.removePlant
  split_ifs with hmem
  · cases htile : w.getTile p.x p.y with
    | none => exact ⟨Or.inr rfl, rfl, rfl, rfl⟩
    | some t => exact ⟨Or.inr rfl, rfl, rfl, rfl⟩
  · exact ⟨Or.inl rfl, rfl, rfl, rfl⟩

theorem attemptSpawn_world_cases (w : World) (strat : Tile → Grid → ℚ) (pick : Nat) :
    (attemptSpawn w strat pick).1 = w ∨
      ∃ p, (attemptSpawn w strat pick).1 = (w.addPlant p).1 := by
  simp only [attemptSpawn]
  split_ifs with hcap helig
  · exact Or.inl rfl
  · exact Or.inl rfl
  · exact Or.inr ⟨_, rfl⟩

/-- Every operation keeps the capacity bounds and preserves the capacity
invariant on the plant and creature lists. -/
theorem applyOp_capacity (w : World) (op : Op) :
    (applyOp w op).maxPlants = w.maxPlants ∧
    (applyOp w op).maxCreatures = w.maxCreatures ∧
    (w.plants.length ≤ w.maxPlants ∧ w.creatures.length ≤ w.maxCreatures →
      (applyOp w op).plants.length ≤ w.maxPlants ∧
      (applyOp w op).creatures.length ≤ w.maxCreatures) := by
  cases op with
  | addPlant p =>
      rcases addPlant_shape w p with hsame | ⟨hlt, hpl, hmp, hmc, hc⟩
      · rw [show applyOp w (Op.addPlant p) = (w.addPlant p).1 from rfl, hsame]
        exact ⟨rfl, rfl, fun h => h⟩
      · refine ⟨hmp, hmc, fun h => ?_⟩
        rw [show applyOp w (Op.addPlant p) = (w.addPlant p).1 from rfl] at *
        rw [hpl, hc]
        simp only [List.length_append, List.length_singleton]
        exact ⟨by omega, h.2⟩
  | removePlant p =>
      obtain ⟨hpl, hc, hmp, hmc⟩ := removePlant_fields w p
      refine ⟨hmp, hmc, fun h => ?_⟩
      rcases hpl with hpl | hpl <;> rw [show applyOp w (Op.removePlant p) = (w.removePlant p).1 from rfl] at * <;>
        rw [hpl, hc]
      · exact h
      · exact ⟨le_trans (List.Sublist.length_le (List.erase_sublist p w.plants)) h.1, h.2⟩
  | addCreature c =>
      obtain ⟨hpl, _, _, hmp, hmc, hc⟩ := addCreature_fields w c
      refine ⟨hmp, hmc, fun h => ?_⟩
      rw [show applyOp w (Op.addCreature c) = (w.addCreature c).1 from rfl] at *
      rcases hc with hc | ⟨hlt, hc⟩ <;> rw [hpl, hc]
      · exact h
      · simp only [List.length_append, List.length_singleton]
        exact ⟨h.1, by omega⟩
  | tickWorld =>
      exact ⟨rfl, rfl, fun h => by
        simpa [applyOp, World.update] using h⟩
  | filterDead =>
      exact ⟨rfl, rfl, fun h =>
        ⟨h.1, le_trans (List.length_filter_le _ _) h.2⟩⟩
  | attemptSpawn strat pick =>
      rcases attemptSpawn_world_cases w strat pick with hsame | ⟨p, hp⟩
      · rw [show applyOp w (Op.attemptSpawn strat pick) = (attemptSpawn w strat pick).1 from rfl,
          hsame]
        exact ⟨rfl, rfl, fun h => h⟩
      · rw [show applyOp w (Op.attemptSpawn strat pick) = (attemptSpawn w strat pick).1 from rfl,
          hp]
        rcases addPlant_shape w p with hsame | ⟨hlt, hpl, hmp, hmc, hc⟩
        · rw [hsame]
          exact ⟨rfl, rfl, fun h => h⟩
        · refine ⟨hmp, hmc, fun h => ?_⟩
          rw [hpl, hc]
          simp only [List.length_append, List.length_singleton]
          exact ⟨by omega, h.2⟩
  | resolveReproductions pending rng =>
      obtain ⟨⟨hpl, _, _, hmp, hmc⟩, hcap⟩ := foldRepro_fields
        (List.range w.creatures.length)
        { world := w, pending := pending, processed := [], rng := rng, rpos := 0 }
      refine ⟨hmp, hmc, fun h => ?_⟩
      rw [show applyOp w (Op.resolveReproductions pending rng)
        = (processReproductions w pending rng).1 from rfl] at *
      unfold processReproductions
      exact ⟨by simpa [hpl] using h.1, hcap h.2⟩

/-- C5: for every World whose lists start within their capacities - any
terrain, any contents - and every operation sequence (plant adds and
removals, creature adds, world ticks, dead filtering, spawning,
reproduction resolution), the plant list never exceeds max_plants and the
creature list never exceeds max_creatures after any operation completes. -/
theorem capacity_invariant (w : World) (ops : List Op)
    (hp : w.plants.length ≤ w.maxPlants) (hc : w.creatures.length ≤ w.maxCreatures) :
    (applyOps w ops).plants.length ≤ w.maxPlants ∧
    (applyOps w ops).creatures.length ≤ w.maxCreatures := by
  induction ops generalizing w with
  | nil => exact ⟨hp, hc⟩
  | cons op l ih =>
      obtain ⟨hmp, hmc, hpres⟩ := applyOp_capacity w op
      obtain ⟨g1, g2⟩ := hpres ⟨hp, hc⟩
      have := ih (applyOp w op) (by rw [hmp]; exact g1) (by rw [hmc]; exact g2)
      rw [hmp, hmc] at this
      simpa [applyOps, List.foldl_cons] using this

/-- C5 witness: the 1x1 all-land world with capacities 10 and an operation
sequence whose add_plant genuinely succeeds; the bounds hold concretely. -/
theorem capacity_invariant_witness :
    probeFreshWorld.plants.length ≤ probeFreshWorld.maxPlants ∧
      probeFreshWorld.creatures.length ≤ probeFreshWorld.maxCreatures ∧
      ((applyOps probeFreshWorld [Op.addPlant (Plant.init 0 0)]).plants.length ≤
          probeFreshWorld.maxPlants ∧
        (applyOps probeFreshWorld [Op.addPlant (Plant.init 0 0)]).creatures.length ≤
          probeFreshWorld.maxCreatures) :=
  ⟨by decide, by decide,
    capacity_invariant probeFreshWorld [Op.addPlant (Plant.init 0 0)] (by decide) (by decide)⟩

/-! ### Occupancy-consistency lemmas -/

theorem setHasPlant_hasPlant (t : Tile) (b : Bool) : (t.setHasPlant b).hasPlant = b := by
  cases t <;> rfl

theorem setHasPlant_isLand (t : Tile) (b : Bool) : (t.setHasPlant b).isLand = t.isLand := by
  cases t <;> rfl

theorem canSupport_isLand (t : Tile) (h : t.canSupportPlant = true) : t.isLand = true := by
  cases t with
  | water x y hp => exact absurd h (by simp [Tile.canSupportPlant])
  | land x y f hp => rfl

theorem canSupport_not_hasPlant (t : Tile) (h : t.canSupportPlant = true) :
    t.hasPlant = false := by
  cases t with
  | water x y hp => exact absurd h (by simp [Tile.canSupportPlant])
  | land x y f hp => simpa [Tile.canSupportPlant, Tile.hasPlant] using h

theorem getTile_plants_irrel (w : World) (pl : List Plant) (x y : Int) :
    ({ w with plants := pl } : World).getTile x y = w.getTile x y := rfl

theorem getTile_set_same (w : World) (x y : Int) (b : Bool) (t : Tile)
    (h : w.getTile x y = some t) :
    (w.setTileHasPlant x y b).getTile x y = some (t.setHasPlant b) := by
  simp only [World.getTile, World.setTileHasPlant] at h ⊢
  split_ifs at h ⊢ with hb hin
  all_goals first
    | exact Option.noConfusion h
    | (obtain ⟨-, hy0, -, hx0, -⟩ := hb
       exact absurd ⟨Int.toNat_of_nonneg hx0, Int.toNat_of_nonneg hy0⟩ hin)
    | rw [Option.some.inj h]

theorem getTile_set_other (w : World) (x y x' y' : Int) (b : Bool)
    (hne : ¬(x' = x ∧ y' = y)) :
    (w.setTileHasPlant x y b).getTile x' y' = w.getTile x' y' := by
  simp only [World.getTile, World.setTileHasPlant]
  split_ifs with hb hxy
  · obtain ⟨-, hy0, -, hx0, -⟩ := hb
    rw [Int.toNat_of_nonneg hx0, Int.toNat_of_nonneg hy0] at hxy
    exact absurd hxy hne
  · rfl
  · rfl

theorem countAt_append_one (l : List Plant) (p : Plant) (x y : Int) :
    countAt (l ++ [p]) x y = countAt l x y + (if p.x = x ∧ p.y = y then 1 else 0) := by
  simp only [countAt, List.countP_append, List.countP_cons, List.countP_nil]
  congr 1
  by_cases h : p.x = x ∧ p.y = y <;> simp [h]

theorem countAt_erase (l : List Plant) (p : Plant) (hp : p ∈ l) (x y : Int) :
    countAt l x y = countAt (l.erase p) x y + (if p.x = x ∧ p.y = y then 1 else 0) := by
  have hperm := List.perm_cons_erase hp
  have h1 : countAt l x y = countAt (p :: l.erase p) x y := by
    simp only [countAt]
    exact hperm.countP_eq _
  rw [h1]
  simp only [countAt, List.countP_cons]
  by_cases h : p.x = x ∧ p.y = y <;> simp [h]

theorem countAt_pos (l : List Plant) (x y : Int) (h : 0 < countAt l x y) :
    ∃ p ∈ l, p.x = x ∧ p.y = y := by
  obtain ⟨p, hp, hpred⟩ := List.countP_pos.mp h
  exact ⟨p, hp, by simpa using hpred⟩

theorem countAt_mem_pos (l : List Plant) (p : Plant) (hp : p ∈ l) :
    0 < countAt l p.x p.y :=
  List.countP_pos.mpr ⟨p, hp, by simp⟩

/-- World.add_plant preserves the occupancy invariant. -/
theorem addPlant_occupancy (w : World) (p : Plant) (hinv : OccupancyInv w) :
    OccupancyInv (w.addPlant p).1 := by
  obtain ⟨hcount, hland⟩ := hinv
  unfold World.addPlant
  split_ifs with hcap
  · exact ⟨hcount, hland⟩
  · cases htile : w.getTile p.x p.y with
    | none => exact ⟨hcount, hland⟩
    | some t =>
        by_cases hsup : t.canSupportPlant = true
        · simp only [hsup, if_true]
          have hfree : t.hasPlant = false := canSupport_not_hasPlant t hsup
          have hzero : countAt w.plants p.x p.y = 0 := by
            simpa [hfree] using hcount p.x p.y t htile
          constructor
          · intro x y t' ht'
            rw [getTile_plants_irrel] at ht'
            by_cases hxy : x = p.x ∧ y = p.y
            · rw [hxy.1, hxy.2] at ht' ⊢
              rw [getTile_set_same w p.x p.y true t htile] at ht'
              simp only [Option.some.injEq] at ht'
              subst ht'
              simp only [setHasPlant_hasPlant, if_true]
              rw [countAt_append_one, hzero, if_pos ⟨rfl, rfl⟩]
            · rw [getTile_set_other w p.x p.y x y true hxy] at ht'
              rw [show ({ w.setTileHasPlant p.x p.y true with plants := w.plants ++ [p] } :
                  World).plants = w.plants ++ [p] from rfl]
              rw [countAt_append_one,
                if_neg (fun hc => hxy ⟨hc.1.symm, hc.2.symm⟩ : ¬(p.x = x ∧ p.y = y))]
              simpa using hcount x y t' ht'
          · intro q hq
            rw [show ({ w.setTileHasPlant p.x p.y true with plants := w.plants ++ [p] } :
                World).plants = w.plants ++ [p] from rfl] at hq
            rw [getTile_plants_irrel]
            rcases List.mem_append.mp hq with hq | hq
            · obtain ⟨t0, ht0, hl0⟩ := hland q hq
              by_cases hxy : q.x = p.x ∧ q.y = p.y
              · exfalso
                have := countAt_mem_pos w.plants q hq
                rw [hxy.1, hxy.2, hzero] at this
                omega
              · exact ⟨t0, by rw [getTile_set_other w p.x p.y q.x q.y true hxy]; exact ht0, hl0⟩
            · have hq : q = p := by simpa using hq
              subst hq
              refine ⟨t.setHasPlant true, getTile_set_same w q.x q.y true t htile, ?_⟩
              rw [setHasPlant_isLand]
              exact canSupport_isLand t hsup
        · simp only [hsup, if_false]
          exact ⟨hcount, hland⟩

/-- World.remove_plant preserves the occupancy invariant. -/
theorem removePlant_occupancy (w : World) (p : Plant) (hinv : OccupancyInv w) :
    OccupancyInv (w.removePlant p).1 := by
  obtain ⟨hcount, hland⟩ := hinv
  unfold World.removePlant
  split_ifs with hmem
  · obtain ⟨t, htile, htl⟩ := hland p hmem
    rw [htile]
    have hpos := countAt_mem_pos w.plants p hmem
    have hcnt := hcount p.x p.y t htile
    have hhp : t.hasPlant = true := by
      by_contra hf
      rw [Bool.not_eq_true] at hf
      rw [hcnt, hf] at hpos
      simp at hpos
    have hone : countAt w.plants p.x p.y = 1 := by rw [hcnt, hhp, if_pos rfl]
    have herase : countAt (w.plants.erase p) p.x p.y = 0 := by
      have heq := countAt_erase w.plants p hmem p.x p.y
      rw [hone, if_pos (⟨rfl, rfl⟩ : p.x = p.x ∧ p.y = p.y)] at heq
      omega
    dsimp only
    constructor
    · intro x y t' ht'
      rw [getTile_plants_irrel] at ht'
      by_cases hxy : x = p.x ∧ y = p.y
      · rw [hxy.1, hxy.2] at ht' ⊢
        rw [getTile_set_same w p.x p.y false t htile] at ht'
        simp only [Option.some.injEq] at ht'
        subst ht'
        simpa [setHasPlant_hasPlant, World.setTileHasPlant] using herase
      · rw [getTile_set_other w p.x p.y x y false hxy] at ht'
        have heq := countAt_erase w.plants p hmem x y
        rw [if_neg (fun hc => hxy ⟨hc.1.symm, hc.2.symm⟩ : ¬(p.x = x ∧ p.y = y))] at heq
        have hc := hcount x y t' ht'
        show countAt (w.plants.erase p) x y = _
        rw [show countAt (w.plants.erase p) x y = countAt w.plants x y by omega]
        exact hc
    · intro q hq
      have hq' : q ∈ w.plants := List.mem_of_mem_erase (show q ∈ w.plants.erase p from hq)
      obtain ⟨t0, ht0, hl0⟩ := hland q hq'
      rw [getTile_plants_irrel]
      by_cases hxy : q.x = p.x ∧ q.y = p.y
      · rw [hxy.1, hxy.2] at ht0 ⊢
        have ht0t : t0 = t := by
          rw [htile] at ht0
          exact (Option.some.inj ht0).symm
        refine ⟨t.setHasPlant false, getTile_set_same w p.x p.y false t htile, ?_⟩
        rw [setHasPlant_isLand, ← ht0t]
        exact hl0
      · exact ⟨t0, by rw [getTile_set_other w p.x p.y q.x q.y false hxy]; exact ht0, hl0⟩
  · exact ⟨hcount, hland⟩

/-- C6: on a fresh terrain, after any sequence of World.add_plant and
World.remove_plant calls, a tile has has_plant = true iff exactly one plant
carries its coordinates, every plant sits on a land tile, and no tile ever
holds more than one plant. -/
theorem occupancy_invariant (w0 : World) (hfresh : FreshTerrain w0) (ops : List PlantOp) :
    OccupancyInv (ops.foldl applyPlantOp w0) ∧
    ∀ x y : Int, countAt (ops.foldl applyPlantOp w0).plants x y ≤ 1 := by
  have hbase : OccupancyInv w0 := by
    obtain ⟨hempty, hflag⟩ := hfresh
    constructor
    · intro x y t ht
      rw [hflag x y t ht, hempty]
      simp [countAt]
    · intro p hp
      rw [hempty] at hp
      exact absurd hp (List.not_mem_nil p)
  have hinv : OccupancyInv (ops.foldl applyPlantOp w0) := by
    clear hfresh
    induction ops generalizing w0 with
    | nil => exact hbase
    | cons op l ih =>
        rw [List.foldl_cons]
        cases op with
        | add p => exact ih _ (addPlant_occupancy w0 p hbase)
        | remove p => exact ih _ (removePlant_occupancy w0 p hbase)
  refine ⟨hinv, ?_⟩
  intro x y
  by_contra hgt
  have h2 : 0 < countAt (ops.foldl applyPlantOp w0).plants x y := by omega
  obtain ⟨p, hp, hpx, hpy⟩ := countAt_pos _ x y h2
  obtain ⟨t, ht, -⟩ := hinv.2 p hp
  have hc := hinv.1 p.x p.y t ht
  rw [hpx, hpy] at hc
  split_ifs at hc <;> omega



/-- C6 witness: a fresh 1x1 land world, with one add_plant applied. -/
theorem occupancy_invariant_witness :
    FreshTerrain probeFreshWorld ∧
    OccupancyInv ([PlantOp.add (Plant.init 0 0)].foldl applyPlantOp probeFreshWorld) := by
  have hfresh : FreshTerrain probeFreshWorld := by
    refine ⟨rfl, ?_⟩
    intro x y t ht
    simp only [probeFreshWorld, World.getTile, World.setTerrain, World.init] at ht
    split_ifs at ht with hb
    all_goals first
      | exact Option.noConfusion ht
      | (rw [← Option.some.inj ht]
         rfl)
  exact ⟨hfresh,
    (occupancy_invariant probeFreshWorld hfresh [PlantOp.add (Plant.init 0 0)]).1⟩

/-! ### Reproduction-resolution lemmas -/

theorem reproduceWith_true (ci cj : Creature)
    (ha1 : ci.isAlive = true) (hl1 : ci.lifeStage = LifeStage.adult)
    (hp1 : Creature.PLANTS_TO_REPRODUCE ≤ ci.plantsEaten) (hc1 : ci.reproductionCooldown = 0)
    (ha2 : cj.isAlive = true) (hl2 : cj.lifeStage = LifeStage.adult)
    (hp2 : Creature.PLANTS_TO_REPRODUCE ≤ cj.plantsEaten) (hc2 : cj.reproductionCooldown = 0)
    (hg : ¬ci.gender = cj.gender)
    (hd : (ci.x - cj.x).natAbs + (ci.y - cj.y).natAbs ≤ Creature.REPRODUCTION_RANGE) :
    ci.reproduceWith cj = true := by
  have hcr1 : ci.canReproduce = true := by
    simp [Creature.canReproduce, ha1, hl1, hp1, hc1]
  have hcr2 : cj.canReproduce = true := by
    simp [Creature.canReproduce, ha2, hl2, hp2, hc2]
  simp [Creature.reproduceWith, hcr1, hcr2, hg, Nat.not_lt.mpr hd]

/-- The successful processing of one pending pair: between 1 and 3 newborn
offspring at the jittered midpoint, parents consume exactly the
reproduction resources, and the pair is recorded as processed. -/
theorem stepRepro_success (s : ReproState) (i j : Nat) (ci cj : Creature)
    (hpend : s.pending i = some j)
    (hnew : pairKey i j ∉ s.processed)
    (hgi : s.world.creatures.get? i = some ci)
    (hgj : s.world.creatures.get? j = some cj)
    (ha1 : ci.isAlive = true) (hl1 : ci.lifeStage = LifeStage.adult)
    (hp1 : Creature.PLANTS_TO_REPRODUCE ≤ ci.plantsEaten) (hc1 : ci.reproductionCooldown = 0)
    (ha2 : cj.isAlive = true) (hl2 : cj.lifeStage = LifeStage.adult)
    (hp2 : Creature.PLANTS_TO_REPRODUCE ≤ cj.plantsEaten) (hc2 : cj.reproductionCooldown = 0)
    (hg : ¬ci.gender = cj.gender)
    (hd : (ci.x - cj.x).natAbs + (ci.y - cj.y).natAbs ≤ Creature.REPRODUCTION_RANGE)
    (hm1 : ci.reproductionCooldownMax = 50) (hm2 : cj.reproductionCooldownMax = 50) :
    ∃ (numOffspring : Nat) (babies : List Creature),
      1 ≤ numOffspring ∧ numOffspring ≤ 3 ∧ babies.length ≤ numOffspring ∧
      (stepRepro s i).world.creatures =
        ((s.world.creatures.set i
            { ci with plantsEaten := ci.plantsEaten - Creature.PLANTS_TO_REPRODUCE
                      reproductionCooldown := 50
                      offspringCount := ci.offspringCount + 1 }).set j
            { cj with plantsEaten := cj.plantsEaten - Creature.PLANTS_TO_REPRODUCE
                      reproductionCooldown := 50
                      offspringCount := cj.offspringCount + 1 }) ++ babies ∧
      (∀ b ∈ babies, b.lifeStage = LifeStage.newborn ∧ b.age = 0 ∧
        ∃ jx jy : Int, -1 ≤ jx ∧ jx ≤ 1 ∧ -1 ≤ jy ∧ jy ≤ 1 ∧
          b.x = max 0 (min ((ci.x + cj.x).fdiv 2 + jx) (GRID_WIDTH - 1)) ∧
          b.y = max 0 (min ((ci.y + cj.y).fdiv 2 + jy) (GRID_HEIGHT - 1))) ∧
      (stepRepro s i).processed = s.processed ++ [pairKey i j] ∧
      (stepRepro s i).world.plants = s.world.plants := by
  have hrw : ci.reproduceWith cj = true :=
    reproduceWith_true ci cj ha1 hl1 hp1 hc1 ha2 hl2 hp2 hc2 hg hd
  obtain ⟨hilt, -⟩ := List.get?_eq_some.mp hgi
  obtain ⟨hjlt, -⟩ := List.get?_eq_some.mp hgj
  obtain ⟨babies, hc, hpl, -, -, -, -, -, hproc2, hlen, hshape, -⟩ :=
    spawnBabies_spec (1 + s.rng s.rpos % 3) ci.x ci.y cj.x cj.y { s with rpos := s.rpos + 1 }
  have hmod : s.rng s.rpos % 3 < 3 := Nat.mod_lt _ (by omega)
  unfold stepRepro
  rw [hpend]
  dsimp only
  rw [if_neg hnew, hgi, hgj]
  dsimp only [drawNat]
  rw [if_pos hrw]
  refine ⟨1 + s.rng s.rpos % 3, babies, by omega, by omega, hlen, ?_, ?_, ?_, ?_⟩
  · show ((spawnBabies (1 + s.rng s.rpos % 3) ci.x ci.y cj.x cj.y
        { s with rpos := s.rpos + 1 }).world.creatures.set i
        ci.consumeReproductionResources).set j cj.consumeReproductionResources = _
    rw [hc, List.set_append_left _ _ hilt,
      List.set_append_left _ _ (by simpa using hjlt)]
    simp [Creature.consumeReproductionResources, hm1, hm2]
  · intro b hb
    obtain ⟨jx, jy, h1, h2, h3, h4, heq⟩ := hshape b hb
    exact ⟨by rw [heq]; rfl, by rw [heq]; rfl, jx, jy, h1, h2, h3, h4,
      by rw [heq]; rfl, by rw [heq]; rfl⟩
  · show (spawnBabies (1 + s.rng s.rpos % 3) ci.x ci.y cj.x cj.y
        { s with rpos := s.rpos + 1 }).processed ++ [pairKey i j] = _
    rw [hproc2]
  · show (spawnBabies (1 + s.rng s.rpos % 3) ci.x ci.y cj.x cj.y
        { s with rpos := s.rpos + 1 }).world.plants = _
    rw [hpl]

theorem stepRepro_processed_cases (s : ReproState) (i : Nat) :
    (stepRepro s i).processed = s.processed ∨
      ∃ pr, pr ∉ s.processed ∧ (stepRepro s i).processed = s.processed ++ [pr] := by
  unfold stepRepro
  cases hp : s.pending i with
  | none => exact Or.inl rfl
  | some j =>
      dsimp only
      split_ifs with hmem
      · exact Or.inl rfl
      · cases hgi : s.world.creatures.get? i with
        | none =>
            cases hgj : s.world.creatures.get? j with
            | none => exact Or.inl rfl
            | some cj => exact Or.inl rfl
        | some ci =>
            cases hgj : s.world.creatures.get? j with
            | none => exact Or.inl rfl
            | some cj =>
                dsimp only [drawNat]
                split_ifs with hrw
                · obtain ⟨babies, -, -, -, -, -, -, -, hproc, -, -, -⟩ :=
                    spawnBabies_spec (1 + s.rng s.rpos % 3) ci.x ci.y cj.x cj.y
                      { s with rpos := s.rpos + 1 }
                  exact Or.inr ⟨pairKey i j, hmem, by rw [hproc]⟩
                · exact Or.inl rfl

theorem foldRepro_nodup (l : List Nat) (s : ReproState) (h : s.processed.Nodup) :
    ((l.foldl stepRepro s).processed).Nodup := by
  induction l generalizing s with
  | nil => exact h
  | cons a l ih =>
      rw [List.foldl_cons]
      refine ih (stepRepro s a) ?_
      rcases stepRepro_processed_cases s a with hsame | ⟨pr, hnotin, happ⟩
      · rw [hsame]; exact h
      · rw [happ]
        simp [List.nodup_append, h, hnotin]

/-- C4: a pending pair that re-validates as mutually eligible produces 1-3
newborn offspring at the jittered midpoint of the parents (clamped to grid
bounds, added through the capacity-checked add_creature), each parent loses
exactly PLANTS_TO_REPRODUCE plants_eaten (floored at 0), resets its
cooldown to 50 and gains one offspring, and each symmetric pair is
processed at most once per resolution pass. -/
theorem process_reproductions_spec :
    (∀ (s : ReproState) (i j : Nat) (ci cj : Creature),
      s.pending i = some j →
      pairKey i j ∉ s.processed →
      s.world.creatures.get? i = some ci →
      s.world.creatures.get? j = some cj →
      ci.isAlive = true → ci.lifeStage = LifeStage.adult →
      Creature.PLANTS_TO_REPRODUCE ≤ ci.plantsEaten → ci.reproductionCooldown = 0 →
      cj.isAlive = true → cj.lifeStage = LifeStage.adult →
      Creature.PLANTS_TO_REPRODUCE ≤ cj.plantsEaten → cj.reproductionCooldown = 0 →
      ¬ci.gender = cj.gender →
      (ci.x - cj.x).natAbs + (ci.y - cj.y).natAbs ≤ Creature.REPRODUCTION_RANGE →
      ci.reproductionCooldownMax = 50 → cj.reproductionCooldownMax = 50 →
      ∃ (numOffspring : Nat) (babies : List Creature),
        1 ≤ numOffspring ∧ numOffspring ≤ 3 ∧ babies.length ≤ numOffspring ∧
        (stepRepro s i).world.creatures =
          ((s.world.creatures.set i
              { ci with plantsEaten := ci.plantsEaten - Creature.PLANTS_TO_REPRODUCE
                        reproductionCooldown := 50
                        offspringCount := ci.offspringCount + 1 }).set j
              { cj with plantsEaten := cj.plantsEaten - Creature.PLANTS_TO_REPRODUCE
                        reproductionCooldown := 50
                        offspringCount := cj.offspringCount + 1 }) ++ babies ∧
        (∀ b ∈ babies, b.lifeStage = LifeStage.newborn ∧ b.age = 0 ∧
          ∃ jx jy : Int, -1 ≤ jx ∧ jx ≤ 1 ∧ -1 ≤ jy ∧ jy ≤ 1 ∧
            b.x = max 0 (min ((ci.x + cj.x).fdiv 2 + jx) (GRID_WIDTH - 1)) ∧
            b.y = max 0 (min ((ci.y + cj.y).fdiv 2 + jy) (GRID_HEIGHT - 1))) ∧
        (stepRepro s i).processed = s.processed ++ [pairKey i j] ∧
        (stepRepro s i).world.plants = s.world.plants) ∧
    (∀ (w : World) (pending : Nat → Option Nat) (rng : Nat → Nat),
      ((processReproductions w pending rng).2).Nodup) := by
  constructor
  · intro s i j ci cj hpend hnew hgi hgj ha1 hl1 hp1 hc1 ha2 hl2 hp2 hc2 hg hd hm1 hm2
    exact stepRepro_success s i j ci cj hpend hnew hgi hgj ha1 hl1 hp1 hc1 ha2 hl2 hp2 hc2
      hg hd hm1 hm2
  · intro w pending rng
    exact foldRepro_nodup (List.range w.creatures.length)
      { world := w, pending := pending, processed := [], rng := rng, rpos := 0 }
      List.nodup_nil

/-- C4 witness: a concrete pending pair of mutually eligible adults. -/
theorem process_reproductions_spec_witness :
    probeRepro.pending 0 = some 1 ∧
    probeRepro.world.creatures.get? 0 = some probeMale ∧
    probeRepro.world.creatures.get? 1 = some probeFemale ∧
    ∃ (numOffspring : Nat) (babies : List Creature),
      1 ≤ numOffspring ∧ numOffspring ≤ 3 ∧ babies.length ≤ numOffspring ∧
      (stepRepro probeRepro 0).world.creatures =
        ((probeRepro.world.creatures.set 0
            { probeMale with
                plantsEaten := probeMale.plantsEaten - Creature.PLANTS_TO_REPRODUCE
                reproductionCooldown := 50
                offspringCount := probeMale.offspringCount + 1 }).set 1
            { probeFemale with
                plantsEaten := probeFemale.plantsEaten - Creature.PLANTS_TO_REPRODUCE
                reproductionCooldown := 50
                offspringCount := probeFemale.offspringCount + 1 }) ++ babies ∧
      (∀ b ∈ babies, b.lifeStage = LifeStage.newborn ∧ b.age = 0 ∧
        ∃ jx jy : Int, -1 ≤ jx ∧ jx ≤ 1 ∧ -1 ≤ jy ∧ jy ≤ 1 ∧
          b.x = max 0 (min ((probeMale.x + probeFemale.x).fdiv 2 + jx) (GRID_WIDTH - 1)) ∧
          b.y = max 0 (min ((probeMale.y + probeFemale.y).fdiv 2 + jy) (GRID_HEIGHT - 1))) ∧
      (stepRepro probeRepro 0).processed = probeRepro.processed ++ [pairKey 0 1] ∧
      (stepRepro probeRepro 0).world.plants = probeRepro.world.plants := by
  refine ⟨rfl, rfl, rfl, ?_⟩
  exact process_reproductions_spec.1 probeRepro 0 1 probeMale probeFemale rfl
    (by simp [probeRepro]) rfl rfl rfl rfl
    (by simp [probeMale, Creature.init, Creature.PLANTS_TO_REPRODUCE])
    rfl rfl rfl (by simp [probeFemale, Creature.init, Creature.PLANTS_TO_REPRODUCE]) rfl
    (by simp [probeMale, probeFemale, Creature.init]) (by simp [probeMale, probeFemale,
      Creature.init, Creature.REPRODUCTION_RANGE]) rfl rfl

/-- One definitional unfolding of the droplet loop. -/
theorem erodeStep_succ (fuel : Nat) (hm : Map2) (width height x y : Nat) (sed : ℚ) :
    erodeStep (fuel + 1) hm width height x y sed =
      (let currentHeight := hm x y
       let low := findLowestNeighbor hm width height x y
       let heightDiff := currentHeight - low.2.2
       if heightDiff ≤ MIN_SLOPE then
         if 0 < sed then hm.set x y (currentHeight + sed * DEPOSITION_STRENGTH) else hm
       else
         let erosionAmount := min heightDiff EROSION_STRENGTH
         let hm1 := hm.set x y (currentHeight - erosionAmount)
         let sediment1 := sed + erosionAmount
         let next :=
           if heightDiff < EROSION_STRENGTH then
             let depositAmount := sediment1 * DEPOSITION_STRENGTH
             (hm1.set x y (hm1 x y + depositAmount), sediment1 - depositAmount)
           else (hm1, sediment1)
         if next.1 low.1 low.2.1 < SEA_LEVEL then next.1
         else erodeStep fuel next.1 width height low.1 low.2.1 next.2) := rfl

/-- One definitional unfolding of the spec-worded deposit-all variant. -/
theorem erodeStepDepositAll_succ (fuel : Nat) (hm : Map2) (width height x y : Nat) (sed : ℚ) :
    erodeStepDepositAll (fuel + 1) hm width height x y sed =
      (let currentHeight := hm x y
       let low := findLowestNeighbor hm width height x y
       let heightDiff := currentHeight - low.2.2
       if heightDiff ≤ MIN_SLOPE then
         if 0 < sed then hm.set x y (currentHeight + sed) else hm
       else
         let erosionAmount := min heightDiff EROSION_STRENGTH
         let hm1 := hm.set x y (currentHeight - erosionAmount)
         let sediment1 := sed + erosionAmount
         let next :=
           if heightDiff < EROSION_STRENGTH then
             let depositAmount := sediment1 * DEPOSITION_STRENGTH
             (hm1.set x y (hm1 x y + depositAmount), sediment1 - depositAmount)
           else (hm1, sediment1)
         if next.1 low.1 low.2.1 < SEA_LEVEL then next.1
         else erodeStepDepositAll fuel next.1 width height low.1 low.2.1 next.2) := rfl

theorem Map2.get_set_same (m : Map2) (x y : Nat) (v : ℚ) : (m.set x y v) x y = v := by
  simp [Map2.set]

theorem Map2.get_set_other (m : Map2) (x y : Nat) (v : ℚ) (a b : Nat)
    (h : ¬(a = x ∧ b = y)) : (m.set x y v) a b = m a b := by
  simp [Map2.set, h]

theorem cex_lowest0 : findLowestNeighbor cexHeightmap 3 1 0 0 = (1, 0, 4/5) := by
  norm_num [findLowestNeighbor, neighborOffsets, cexHeightmap]

theorem cex_lowest1 : findLowestNeighbor cexMap1 3 1 1 0 = (2, 0, 159/200) := by
  norm_num [findLowestNeighbor, neighborOffsets, cexMap1, cexHeightmap, Map2.set, Int.toNat]

theorem cex_lowest2 : findLowestNeighbor cexMap2 3 1 2 0 = (2, 0, 159/200) := by
  norm_num [findLowestNeighbor, neighborOffsets, cexMap2, cexMap1, cexHeightmap, Map2.set,
    Int.toNat]

theorem cex_step1 : erodePath cexHeightmap 3 1 0 0 =
    erodeStep 99 cexMap1 3 1 1 0 (1/500) := by
  simp only [erodePath, MAX_PATH_LENGTH]
  rw [show (100:Nat) = 99 + 1 from rfl, erodeStep_succ, cex_lowest0]
  dsimp only
  have hslope : ¬(cexHeightmap 0 0 - 4/5 ≤ MIN_SLOPE) := by
    norm_num [cexHeightmap, MIN_SLOPE]
  have hero : ¬(cexHeightmap 0 0 - 4/5 < EROSION_STRENGTH) := by
    norm_num [cexHeightmap, EROSION_STRENGTH]
  rw [if_neg hslope, if_neg hero]
  have hsea : ¬((cexHeightmap.set 0 0
      (cexHeightmap 0 0 - min (cexHeightmap 0 0 - 4/5) EROSION_STRENGTH)) 1 0 < SEA_LEVEL) := by
    norm_num [Map2.set, cexHeightmap, SEA_LEVEL]
  rw [if_neg hsea]
  congr 1
  · rw [cexMap1]
    congr 1
    norm_num [cexHeightmap, EROSION_STRENGTH, min_def]

theorem cex_step2 : erodeStep 99 cexMap1 3 1 1 0 (1/500) =
    erodeStep 98 cexMap2 3 1 2 0 (1/250) := by
  rw [show (99:Nat) = 98 + 1 from rfl, erodeStep_succ, cex_lowest1]
  dsimp only
  have hslope : ¬(cexMap1 1 0 - 159/200 ≤ MIN_SLOPE) := by
    norm_num [cexMap1, cexHeightmap, Map2.set, MIN_SLOPE]
  have hero : ¬(cexMap1 1 0 - 159/200 < EROSION_STRENGTH) := by
    norm_num [cexMap1, cexHeightmap, Map2.set, EROSION_STRENGTH]
  rw [if_neg hslope, if_neg hero]
  have hsea : ¬((cexMap1.set 1 0
      (cexMap1 1 0 - min (cexMap1 1 0 - 159/200) EROSION_STRENGTH)) 2 0 < SEA_LEVEL) := by
    norm_num [cexMap1, cexHeightmap, Map2.set, SEA_LEVEL]
  rw [if_neg hsea]
  congr 1
  · rw [cexMap2]
    congr 1
    norm_num [cexMap1, cexHeightmap, Map2.set, EROSION_STRENGTH, min_def]

theorem cex_step3 : erodeStep 98 cexMap2 3 1 2 0 (1/250) =
    cexMap2.set 2 0 (159/200 + (1/250) * DEPOSITION_STRENGTH) := by
  rw [show (98:Nat) = 97 + 1 from rfl, erodeStep_succ, cex_lowest2]
  dsimp only
  have hstop : cexMap2 2 0 - 159/200 ≤ MIN_SLOPE := by
    norm_num [cexMap2, cexMap1, cexHeightmap, Map2.set, MIN_SLOPE]
  rw [if_pos hstop, if_pos (by norm_num : (0:ℚ) < 1/250)]
  congr 1
  norm_num [cexMap2, cexMap1, cexHeightmap, Map2.set]

theorem cex_stepD1 : erodePathDepositAll cexHeightmap 3 1 0 0 =
    erodeStepDepositAll 99 cexMap1 3 1 1 0 (1/500) := by
  simp only [erodePathDepositAll, MAX_PATH_LENGTH]
  rw [show (100:Nat) = 99 + 1 from rfl, erodeStepDepositAll_succ, cex_lowest0]
  dsimp only
  have hslope : ¬(cexHeightmap 0 0 - 4/5 ≤ MIN_SLOPE) := by
    norm_num [cexHeightmap, MIN_SLOPE]
  have hero : ¬(cexHeightmap 0 0 - 4/5 < EROSION_STRENGTH) := by
    norm_num [cexHeightmap, EROSION_STRENGTH]
  rw [if_neg hslope, if_neg hero]
  have hsea : ¬((cexHeightmap.set 0 0
      (cexHeightmap 0 0 - min (cexHeightmap 0 0 - 4/5) EROSION_STRENGTH)) 1 0 < SEA_LEVEL) := by
    norm_num [Map2.set, cexHeightmap, SEA_LEVEL]
  rw [if_neg hsea]
  congr 1
  · rw [cexMap1]
    congr 1
    norm_num [cexHeightmap, EROSION_STRENGTH, min_def]

theorem cex_stepD2 : erodeStepDepositAll 99 cexMap1 3 1 1 0 (1/500) =
    erodeStepDepositAll 98 cexMap2 3 1 2 0 (1/250) := by
  rw [show (99:Nat) = 98 + 1 from rfl, erodeStepDepositAll_succ, cex_lowest1]
  dsimp only
  have hslope : ¬(cexMap1 1 0 - 159/200 ≤ MIN_SLOPE) := by
    norm_num [cexMap1, cexHeightmap, Map2.set, MIN_SLOPE]
  have hero : ¬(cexMap1 1 0 - 159/200 < EROSION_STRENGTH) := by
    norm_num [cexMap1, cexHeightmap, Map2.set, EROSION_STRENGTH]
  rw [if_neg hslope, if_neg hero]
  have hsea : ¬((cexMap1.set 1 0
      (cexMap1 1 0 - min (cexMap1 1 0 - 159/200) EROSION_STRENGTH)) 2 0 < SEA_LEVEL) := by
    norm_num [cexMap1, cexHeightmap, Map2.set, SEA_LEVEL]
  rw [if_neg hsea]
  congr 1
  · rw [cexMap2]
    congr 1
    norm_num [cexMap1, cexHeightmap, Map2.set, EROSION_STRENGTH, min_def]

theorem cex_stepD3 : erodeStepDepositAll 98 cexMap2 3 1 2 0 (1/250) =
    cexMap2.set 2 0 (159/200 + 1/250) := by
  rw [show (98:Nat) = 97 + 1 from rfl, erodeStepDepositAll_succ, cex_lowest2]
  dsimp only
  have hstop : cexMap2 2 0 - 159/200 ≤ MIN_SLOPE := by
    norm_num [cexMap2, cexMap1, cexHeightmap, Map2.set, MIN_SLOPE]
  rw [if_pos hstop, if_pos (by norm_num : (0:ℚ) < 1/250)]
  congr 1
  norm_num [cexMap2, cexMap1, cexHeightmap, Map2.set]

/-- C9 counterexample: on the concrete 3x1 heightmap, the droplet started
at (0, 0) reaches (2, 0) carrying sediment 1/250 and stops there; the code
deposits sediment * deposition_strength = 1/250000, leaving height
198751/250000, while depositing ALL the carried sediment (the claim) would
leave 799/1000.  The claim as stated is false on this input. -/
theorem erosion_deposit_counterexample :
    erodePath cexHeightmap 3 1 0 0 2 0 = 198751/250000 ∧
    erodePathDepositAll cexHeightmap 3 1 0 0 2 0 = 799/1000 ∧
    ¬(erodePath cexHeightmap 3 1 0 0 2 0 =
        erodePathDepositAll cexHeightmap 3 1 0 0 2 0) := by
  have h1 : erodePath cexHeightmap 3 1 0 0 2 0 = 198751/250000 := by
    rw [cex_step1, cex_step2, cex_step3, Map2.get_set_same]
    norm_num [DEPOSITION_STRENGTH]
  have h2 : erodePathDepositAll cexHeightmap 3 1 0 0 2 0 = 799/1000 := by
    rw [cex_stepD1, cex_stepD2, cex_stepD3, Map2.get_set_same]
    norm_num
  refine ⟨h1, h2, ?_⟩
  rw [h1, h2]
  norm_num

/-- C9 (amended): a droplet whose height drop to its lowest 8-neighbor is
at most the minimum-slope threshold deposits sediment * deposition_strength
(one thousandth of its carried sediment, when positive) at its current cell
and stops; and after all droplets have run and the final clamp is applied,
every heightmap cell lies in [0, 1]. -/
theorem erosion_spec_amended :
    (∀ (fuel : Nat) (hm : Map2) (width height x y : Nat) (sed : ℚ),
      hm x y - (findLowestNeighbor hm width height x y).2.2 ≤ MIN_SLOPE →
      erodeStep (fuel + 1) hm width height x y sed =
        (if 0 < sed then hm.set x y (hm x y + sed * DEPOSITION_STRENGTH) else hm)) ∧
    (∀ (O : MathOracle) (seed : Int) (hm0 : Map2) (width height x y : Nat),
      0 ≤ applyHydraulicErosion O seed hm0 width height x y ∧
      applyHydraulicErosion O seed hm0 width height x y ≤ 1) := by
  constructor
  · intro fuel hm width height x y sed hstop
    rw [erodeStep_succ]
    dsimp only
    rw [if_pos hstop]
  · intro O seed hm0 width height x y
    simp only [applyHydraulicErosion, clampHeightmap]
    exact ⟨le_max_left _ _, max_le (by norm_num) (min_le_left _ _)⟩

/-- C9 witness: the stop-and-deposit behavior at a concrete droplet state. -/
theorem erosion_spec_amended_witness :
    (cexMap2 2 0 - (findLowestNeighbor cexMap2 3 1 2 0).2.2 ≤ MIN_SLOPE) ∧
    erodeStep 1 cexMap2 3 1 2 0 (1/250) =
      (if 0 < (1/250 : ℚ) then
        cexMap2.set 2 0 (cexMap2 2 0 + (1/250) * DEPOSITION_STRENGTH)
       else cexMap2) := by
  have h : cexMap2 2 0 - (findLowestNeighbor cexMap2 3 1 2 0).2.2 ≤ MIN_SLOPE := by
    rw [cex_lowest2]
    norm_num [cexMap2, cexMap1, cexHeightmap, Map2.set, MIN_SLOPE]
  exact ⟨h, erosion_spec_amended.1 0 cexMap2 3 1 2 0 (1/250) h⟩

/-! ### Fertility-bound lemmas: the box-blur window -/

theorem mem_windowCells {width height x y a b : Nat} :
    (a, b) ∈ windowCells width height x y ↔
      (a < width ∧ b < height ∧
        (x : Int) - 1 ≤ (a : Int) ∧ (a : Int) ≤ (x : Int) + 1 ∧
        (y : Int) - 1 ≤ (b : Int) ∧ (b : Int) ≤ (y : Int) + 1) := by
  constructor
  · intro hmem
    simp only [windowCells, List.mem_filterMap] at hmem
    obtain ⟨d, hd, hif⟩ := hmem
    split_ifs at hif with hc
    · simp only [Option.some.injEq, Prod.mk.injEq] at hif
      obtain ⟨ha, hb⟩ := hif
      simp only [boxOffsets, List.mem_cons, List.not_mem_nil, or_false] at hd
      obtain ⟨h1, h2, h3, h4⟩ := hc
      rcases hd with h|h|h|h|h|h|h|h|h <;> subst h <;>
        refine ⟨by omega, by omega, by omega, by omega, by omega, by omega⟩
  · intro ⟨haw, hbh, h1, h2, h3, h4⟩
    simp only [windowCells, List.mem_filterMap]
    refine ⟨((a : Int) - x, (b : Int) - y), ?_, ?_⟩
    · simp only [boxOffsets, List.mem_cons, List.not_mem_nil, or_false, Prod.mk.injEq]
      omega
    · rw [if_pos ⟨by omega, by omega, by omega, by omega⟩]
      simp only [Option.some.injEq, Prod.mk.injEq]
      constructor <;> omega

theorem self_mem_windowCells {width height x y : Nat} (hx : x < width) (hy : y < height) :
    (x, y) ∈ windowCells width height x y :=
  mem_windowCells.mpr (by omega)

theorem windowCells_symm {width height x y a b : Nat}
    (h : (a, b) ∈ windowCells width height x y) (hx : x < width) (hy : y < height) :
    (x, y) ∈ windowCells width height a b := by
  rw [mem_windowCells] at h ⊢
  omega

theorem windowCells_length_le (width height x y : Nat) :
    (windowCells width height x y).length ≤ 9 :=
  le_trans (List.length_filterMap_le _ _) (by simp [boxOffsets])

theorem windowCells_ne_nil {width height x y : Nat} (hx : x < width) (hy : y < height) :
    windowCells width height x y ≠ [] := by
  intro he
  have := @self_mem_windowCells width height x y hx hy
  rw [he] at this
  exact absurd this (List.not_mem_nil _)

/-! ### Fertility-bound lemmas: list averages -/

theorem list_mul_length_le_sum (l : List ℚ) (B : ℚ) (h : ∀ v ∈ l, B ≤ v) :
    B * l.length ≤ l.sum := by
  induction l with
  | nil => simp
  | cons a t ih =>
      simp only [List.length_cons, List.sum_cons]
      have hB := h a (by simp)
      have iht := ih (fun v hv => h v (by simp [hv]))
      push_cast
      nlinarith [iht, hB]

theorem list_sum_le_mul_length (l : List ℚ) (B : ℚ) (h : ∀ v ∈ l, v ≤ B) :
    l.sum ≤ B * l.length := by
  induction l with
  | nil => simp
  | cons a t ih =>
      simp only [List.length_cons, List.sum_cons]
      have hB := h a (by simp)
      have iht := ih (fun v hv => h v (by simp [hv]))
      push_cast
      nlinarith [iht, hB]

theorem smoothOnce_lb (width height : Nat) (fm : Map2) (x y : Nat) (B : ℚ)
    (hx : x < width) (hy : y < height)
    (hB : ∀ c ∈ windowCells width height x y, B ≤ fm c.1 c.2) :
    B ≤ smoothOnce width height fm x y := by
  have hne := @windowCells_ne_nil width height x y hx hy
  have hpos : 0 < (windowCells width height x y).length := List.length_pos.mpr hne
  simp only [smoothOnce]
  rw [if_pos hpos, le_div_iff (by exact_mod_cast hpos)]
  have := list_mul_length_le_sum ((windowCells width height x y).map fun c => fm c.1 c.2) B
    (by
      intro v hv
      obtain ⟨c, hc, rfl⟩ := List.mem_map.mp hv
      exact hB c hc)
  simpa using this

theorem smoothOnce_ub (width height : Nat) (fm : Map2) (x y : Nat) (B : ℚ)
    (hx : x < width) (hy : y < height)
    (hB : ∀ c ∈ windowCells width height x y, fm c.1 c.2 ≤ B) :
    smoothOnce width height fm x y ≤ B := by
  have hne := @windowCells_ne_nil width height x y hx hy
  have hpos : 0 < (windowCells width height x y).length := List.length_pos.mpr hne
  simp only [smoothOnce]
  rw [if_pos hpos, div_le_iff (by exact_mod_cast hpos)]
  have := list_sum_le_mul_length ((windowCells width height x y).map fun c => fm c.1 c.2) B
    (by
      intro v hv
      obtain ⟨c, hc, rfl⟩ := List.mem_map.mp hv
      exact hB c hc)
  simpa using this

/-- Average lower bound from a single large member: if one window cell is
at least A and all are nonnegative, the window average is at least A / 9. -/
theorem smoothOnce_single_lb (width height : Nat) (fm : Map2) (x y : Nat) (A : ℚ)
    (c0 : Nat × Nat) (hc0 : c0 ∈ windowCells width height x y)
    (hA : 0 ≤ A) (hval : A ≤ fm c0.1 c0.2)
    (hnn : ∀ c ∈ windowCells width height x y, 0 ≤ fm c.1 c.2) :
    A / 9 ≤ smoothOnce width height fm x y := by
  have hpos : 0 < (windowCells width height x y).length :=
    List.length_pos.mpr (by
      intro he
      rw [he] at hc0
      exact absurd hc0 (List.not_mem_nil _))
  have hlen9 := windowCells_length_le width height x y
  simp only [smoothOnce]
  rw [if_pos hpos]
  have hsum : A ≤ ((windowCells width height x y).map fun c => fm c.1 c.2).sum := by
    refine le_trans hval (List.single_le_sum ?_ _ ?_)
    · intro v hv
      obtain ⟨c, hc, rfl⟩ := List.mem_map.mp hv
      exact hnn c hc
    · exact List.mem_map_of_mem _ hc0
  calc A / 9 ≤ A / (windowCells width height x y).length := by
        apply div_le_div_of_nonneg_left hA (by exact_mod_cast hpos)
        exact_mod_cast hlen9
    _ ≤ ((windowCells width height x y).map fun c => fm c.1 c.2).sum /
        (windowCells width height x y).length :=
        (div_le_div_right (by exact_mod_cast hpos)).mpr hsum
    _ = _ := by simp

/-! ### Fertility-bound lemmas: water positions and distances -/

theorem isWater_false_of_isLand {t : Tile} (h : t.isLand = true) : t.isWater = false := by
  cases t <;> simp_all [Tile.isLand, Tile.isWater]

theorem isLand_of_isWater_false {t : Tile} (h : t.isWater = false) : t.isLand = true := by
  cases t <;> simp_all [Tile.isLand, Tile.isWater]

theorem mem_waterPositions {g : Grid} {a b : Nat} :
    (a, b) ∈ waterPositions g ↔
      a < g.width ∧ b < g.height ∧ (g.tile a b).isWater = true := by
  constructor
  · intro h
    simp only [waterPositions, List.mem_flatMap, List.mem_filterMap, List.mem_range] at h
    obtain ⟨y0, hy0, x0, hx0, hif⟩ := h
    split_ifs at hif with hw
    · simp only [Option.some.injEq, Prod.mk.injEq] at hif
      obtain ⟨rfl, rfl⟩ := hif
      exact ⟨hx0, hy0, hw⟩
  · intro ⟨h1, h2, h3⟩
    simp only [waterPositions, List.mem_flatMap, List.mem_filterMap, List.mem_range]
    exact ⟨b, h2, a, h1, by rw [if_pos h3]⟩

theorem sqDist_ge_one {x y wx wy : Nat} (h : ¬(wx = x ∧ wy = y)) :
    1 ≤ sqDist x y wx wy := by
  simp only [sqDist]
  have hcase : (x : Int) - wx ≠ 0 ∨ (y : Int) - wy ≠ 0 := by omega
  have hx2 : 0 ≤ ((x : Int) - wx) ^ 2 := sq_nonneg _
  have hy2 : 0 ≤ ((y : Int) - wy) ^ 2 := sq_nonneg _
  have h1 : (1 : Int) ≤ ((x : Int) - wx) ^ 2 + ((y : Int) - wy) ^ 2 := by
    rcases hcase with hne | hne
    · have habs : 1 ≤ |(x : Int) - wx| := Int.one_le_abs hne
      nlinarith [sq_abs ((x : Int) - wx), abs_nonneg ((x : Int) - wx)]
    · have habs : 1 ≤ |(y : Int) - wy| := Int.one_le_abs hne
      nlinarith [sq_abs ((y : Int) - wy), abs_nonneg ((y : Int) - wy)]
  exact_mod_cast h1

theorem sqDist_orth {x y wx wy : Nat}
    (h : ((wx : Int) - x).natAbs + ((wy : Int) - y).natAbs = 1) :
    sqDist x y wx wy = 1 := by
  simp only [sqDist]
  have h1 : ((x : Int) - wx) ^ 2 + ((y : Int) - wy) ^ 2 = 1 := by
    have hd : (((x : Int) - wx = 1 ∨ (x : Int) - wx = -1) ∧ (y : Int) - wy = 0) ∨
        (((y : Int) - wy = 1 ∨ (y : Int) - wy = -1) ∧ (x : Int) - wx = 0) := by omega
    rcases hd with ⟨h1 | h1, h2⟩ | ⟨h1 | h1, h2⟩ <;> rw [h1, h2] <;> norm_num
  rw [h1]
  norm_num

theorem sqDist_diag {x y wx wy : Nat}
    (hx : ((wx : Int) - x).natAbs = 1) (hy : ((wy : Int) - y).natAbs = 1) :
    sqDist x y wx wy = 2 := by
  simp only [sqDist]
  have h1 : ((x : Int) - wx) ^ 2 + ((y : Int) - wy) ^ 2 = 2 := by
    have hdx : (x : Int) - wx = 1 ∨ (x : Int) - wx = -1 := by omega
    have hdy : (y : Int) - wy = 1 ∨ (y : Int) - wy = -1 := by omega
    rcases hdx with h1 | h1 <;> rcases hdy with h2 | h2 <;> rw [h1, h2] <;> norm_num
  rw [h1]
  norm_num

/-! ### Fertility-bound lemmas: the nearest-water scan -/

theorem findNearestAux_ge_one (O : MathOracle) (x y : Nat)
    (hs1 : ∀ q : ℚ, 1 ≤ q → 1 ≤ O.sqrtFn q) :
    ∀ (l : List (Nat × Nat)) (md : Option ℚ),
      (∀ p ∈ l, ¬(p.1 = x ∧ p.2 = y)) →
      (∀ a, md = some a → 1 ≤ a) →
      ∀ r, findNearestAux O x y l md = some r → 1 ≤ r := by
  intro l
  induction l with
  | nil =>
      intro md hmem hacc r hr
      exact hacc r hr
  | cons q rest ih =>
      intro md hmem hacc r hr
      simp only [findNearestAux] at hr
      split_ifs at hr with hman hle
      · exact ih md (fun p hp => hmem p (by simp [hp])) hacc r hr
      · -- early exit: r is the new min
        have hd : 1 ≤ O.sqrtFn (sqDist x y q.1 q.2) :=
          hs1 _ (sqDist_ge_one (hmem q (by simp)))
        simp only [Option.some.injEq] at hr
        subst hr
        cases md with
        | none => exact hd
        | some m =>
            have hm := hacc m rfl
            simp only [le_min_iff]
            exact ⟨hm, hd⟩
      · refine ih _ (fun p hp => hmem p (by simp [hp])) ?_ r hr
        intro a ha
        simp only [Option.some.injEq] at ha
        subst ha
        have hd : 1 ≤ O.sqrtFn (sqDist x y q.1 q.2) :=
          hs1 _ (sqDist_ge_one (hmem q (by simp)))
        cases md with
        | none => exact hd
        | some m =>
            have hm := hacc m rfl
            simp only [le_min_iff]
            exact ⟨hm, hd⟩

theorem findNearestAux_some_le (O : MathOracle) (x y : Nat) :
    ∀ (l : List (Nat × Nat)) (a : ℚ),
      ∃ r, findNearestAux O x y l (some a) = some r ∧ r ≤ a := by
  intro l
  induction l with
  | nil => exact fun a => ⟨a, rfl, le_refl a⟩
  | cons q rest ih =>
      intro a
      simp only [findNearestAux]
      split_ifs with hman hle
      · exact ih a
      · exact ⟨min a (O.sqrtFn (sqDist x y q.1 q.2)), rfl, min_le_left _ _⟩
      · obtain ⟨r, hr, hle2⟩ := ih (min a (O.sqrtFn (sqDist x y q.1 q.2)))
        exact ⟨r, hr, le_trans hle2 (min_le_left _ _)⟩

theorem findNearestAux_le_target (O : MathOracle) (x y : Nat) (p : Nat × Nat) :
    ∀ (l : List (Nat × Nat)) (md : Option ℚ), p ∈ l →
      ((x : Int) - p.1).natAbs + ((y : Int) - p.2).natAbs ≤ FERTILITY_MAX_DISTANCE + 5 →
      ∃ r, findNearestAux O x y l md = some r ∧
        (r ≤ 1 ∨ r ≤ O.sqrtFn (sqDist x y p.1 p.2)) := by
  intro l
  induction l with
  | nil => exact fun md hp _ => absurd hp (List.not_mem_nil p)
  | cons q rest ih =>
      intro md hp hman
      simp only [findNearestAux]
      rcases List.mem_cons.mp hp with hpq | hpr
      · subst hpq
        rw [if_neg (by omega)]
        split_ifs with hle
        · exact ⟨_, rfl, Or.inl hle⟩
        · cases md with
          | none =>
              obtain ⟨r, hr, hrle⟩ := findNearestAux_some_le O x y rest
                (O.sqrtFn (sqDist x y p.1 p.2))
              exact ⟨r, hr, Or.inr hrle⟩
          | some m =>
              obtain ⟨r, hr, hrle⟩ := findNearestAux_some_le O x y rest
                (min m (O.sqrtFn (sqDist x y p.1 p.2)))
              exact ⟨r, hr, Or.inr (le_trans hrle (min_le_right _ _))⟩
      · split_ifs with hman2 hle
        · exact ih md hpr hman
        · exact ⟨_, rfl, Or.inl hle⟩
        · exact ih _ hpr hman

/-! ### Fertility-bound lemmas: the pre-smoothing map -/

theorem base_land_lb (O : MathOracle) (g : Grid) (x y : Nat)
    (h : (g.tile x y).isLand = true) :
    MIN_FERTILITY ≤ baseFertilityMap O g x y := by
  simp only [baseFertilityMap]
  rw [if_pos h]
  cases hfd : findNearestWaterDistance O x y (waterPositions g) with
  | none => exact le_max_left _ _
  | some d =>
      simp only [distanceToFertility]
      split_ifs with hd0
      · norm_num [MIN_FERTILITY, MAX_FERTILITY]
      · exact le_max_left _ _

theorem base_nonneg (O : MathOracle) (g : Grid) (x y : Nat) :
    0 ≤ baseFertilityMap O g x y := by
  by_cases h : (g.tile x y).isLand = true
  · have h1 := base_land_lb O g x y h
    have h2 : (0 : ℚ) ≤ MIN_FERTILITY := by norm_num [MIN_FERTILITY]
    linarith
  · simp only [baseFertilityMap]
    rw [if_neg h]

theorem base_le_one (O : MathOracle) (g : Grid) (x y : Nat) :
    baseFertilityMap O g x y ≤ 1 := by
  simp only [baseFertilityMap]
  split_ifs with h
  · cases hfd : findNearestWaterDistance O x y (waterPositions g) with
    | none =>
        simp only [distanceToFertility]
        norm_num [MIN_FERTILITY, MAX_FERTILITY, max_def, min_def]
    | some d =>
        simp only [distanceToFertility]
        split_ifs with hd0
        · norm_num [MAX_FERTILITY]
        · refine max_le (by norm_num [MIN_FERTILITY]) ?_
          exact le_trans (min_le_left _ _) (by norm_num [MAX_FERTILITY])
  · norm_num

/-- A land cell orthogonally adjacent to an in-bounds water cell gets base
fertility at least exp(-falloff_rate * 1) which is at least 0.92: the scan
finds distance exactly 1 there. -/
theorem base_land_orth_lb (O : MathOracle) (g : Grid)
    (hs1 : ∀ q : ℚ, 1 ≤ q → 1 ≤ O.sqrtFn q)
    (hsqOne : O.sqrtFn 1 = 1)
    (hexpOne : 23/25 ≤ O.expFn (-FERTILITY_FALLOFF_RATE))
    (x y wx wy : Nat)
    (hxw : wx < g.width) (hyw : wy < g.height)
    (hw : (g.tile wx wy).isWater = true)
    (hland : (g.tile x y).isLand = true)
    (horth : ((wx : Int) - x).natAbs + ((wy : Int) - y).natAbs = 1) :
    23/25 ≤ baseFertilityMap O g x y := by
  have hwmem : (wx, wy) ∈ waterPositions g := mem_waterPositions.mpr ⟨hxw, hyw, hw⟩
  have hnc : ∀ p ∈ waterPositions g, ¬(p.1 = x ∧ p.2 = y) := by
    intro p hp hpeq
    obtain ⟨a, b⟩ := p
    have hpw : (g.tile a b).isWater = true := (mem_waterPositions.mp hp).2.2
    have h1 : a = x := hpeq.1
    have h2 : b = y := hpeq.2
    rw [h1, h2] at hpw
    rw [isWater_false_of_isLand hland] at hpw
    exact Bool.false_ne_true hpw
  have hman : ((x : Int) - wx).natAbs + ((y : Int) - wy).natAbs ≤
      FERTILITY_MAX_DISTANCE + 5 := by
    simp only [FERTILITY_MAX_DISTANCE]
    omega
  obtain ⟨r, hr, hrle⟩ :=
    findNearestAux_le_target O x y (wx, wy) (waterPositions g) none hwmem hman
  have hr1 : 1 ≤ r :=
    findNearestAux_ge_one O x y hs1 (waterPositions g) none hnc
      (by intro a ha; cases ha) r hr
  have hreq : r = 1 := by
    rcases hrle with h | h
    · linarith
    · rw [sqDist_orth horth, hsqOne] at h
      linarith
  simp only [baseFertilityMap]
  rw [if_pos hland]
  have hfd : findNearestWaterDistance O x y (waterPositions g) = some 1 := by
    rw [findNearestWaterDistance, hr, hreq]
  rw [hfd]
  simp only [distanceToFertility]
  have h10 : ¬(1 : ℚ) = 0 := by norm_num
  rw [if_neg h10, mul_one]
  simp only [MAX_FERTILITY, one_mul]
  exact le_max_of_le_right (le_min (by norm_num) hexpOne)

/-! ### Fertility-bound lemmas: the first smoothing pass -/

theorem smoothOnce_nonneg_of (width height : Nat) (fm : Map2)
    (h : ∀ a b, 0 ≤ fm a b) (x y : Nat) : 0 ≤ smoothOnce width height fm x y := by
  simp only [smoothOnce]
  split_ifs with hpos
  · apply div_nonneg
    · apply List.sum_nonneg
      intro v hv
      obtain ⟨c, hc, rfl⟩ := List.mem_map.mp hv
      exact h c.1 c.2
    · exact_mod_cast Nat.zero_le _
  · exact h x y

theorem smoothOnce_le_one_of (width height : Nat) (fm : Map2)
    (h : ∀ a b, fm a b ≤ 1) (x y : Nat) :
    smoothOnce width height fm x y ≤ 1 := by
  simp only [smoothOnce]
  split_ifs with hpos
  · rw [div_le_iff (by exact_mod_cast hpos)]
    have := list_sum_le_mul_length
      ((windowCells width height x y).map fun c => fm c.1 c.2) 1
      (by
        intro v hv
        obtain ⟨c, hc, rfl⟩ := List.mem_map.mp hv
        exact h c.1 c.2)
    simpa using this
  · exact h x y

/-- After the first blur pass every in-bounds land cell still has value at
least MIN_FERTILITY: with no water in the window all averaged base values
are at least 0.1, and with water in the window some window cell is a land
cell orthogonally adjacent to water, contributing at least 0.92/9. -/
theorem pass1_land_lb (O : MathOracle) (g : Grid)
    (hs1 : ∀ q : ℚ, 1 ≤ q → 1 ≤ O.sqrtFn q)
    (hsqOne : O.sqrtFn 1 = 1)
    (hexpOne : 23/25 ≤ O.expFn (-FERTILITY_FALLOFF_RATE))
    (x y : Nat) (hx : x < g.width) (hy : y < g.height)
    (hland : (g.tile x y).isLand = true) :
    MIN_FERTILITY ≤ smoothOnce g.width g.height (baseFertilityMap O g) x y := by
  by_cases hww : ∃ c ∈ windowCells g.width g.height x y, (g.tile c.1 c.2).isWater = true
  · obtain ⟨⟨a, b⟩, hcmem, hcw⟩ := hww
    have hco := mem_windowCells.mp hcmem
    have hkey : ∃ c0 ∈ windowCells g.width g.height x y,
        (23/25 : ℚ) ≤ baseFertilityMap O g c0.1 c0.2 := by
      have hne : ¬(a = x ∧ b = y) := by
        rintro ⟨rfl, rfl⟩
        rw [isWater_false_of_isLand hland] at hcw
        exact Bool.false_ne_true hcw
      rcases Nat.lt_or_ge (((a : Int) - x).natAbs + ((b : Int) - y).natAbs) 2 with hsum | hsum
      · have horth : ((a : Int) - x).natAbs + ((b : Int) - y).natAbs = 1 := by omega
        exact ⟨(x, y), self_mem_windowCells hx hy,
          base_land_orth_lb O g hs1 hsqOne hexpOne x y a b hco.1 hco.2.1 hcw hland horth⟩
      · have hdx1 : ((a : Int) - x).natAbs = 1 := by omega
        have hdy1 : ((b : Int) - y).natAbs = 1 := by omega
        cases hbw : (g.tile x b).isWater with
        | true =>
            exact ⟨(x, y), self_mem_windowCells hx hy,
              base_land_orth_lb O g hs1 hsqOne hexpOne x y x b hx hco.2.1 hbw hland
                (by omega)⟩
        | false =>
            refine ⟨(x, b),
              mem_windowCells.mpr ⟨hx, hco.2.1, by omega, by omega, by omega, by omega⟩, ?_⟩
            exact base_land_orth_lb O g hs1 hsqOne hexpOne x b a b hco.1 hco.2.1 hcw
              (isLand_of_isWater_false hbw) (by omega)
    obtain ⟨c0, hc0mem, hc0⟩ := hkey
    have h9 := smoothOnce_single_lb g.width g.height (baseFertilityMap O g) x y (23/25)
      c0 hc0mem (by norm_num) hc0 (fun c _ => base_nonneg O g c.1 c.2)
    have hlt : MIN_FERTILITY ≤ (23/25 : ℚ) / 9 := by norm_num [MIN_FERTILITY]
    linarith
  · push_neg at hww
    refine smoothOnce_lb _ _ _ _ _ MIN_FERTILITY hx hy ?_
    intro c hc
    have hcl : (g.tile c.1 c.2).isLand = true :=
      isLand_of_isWater_false (by simpa using hww c hc)
    exact base_land_lb O g c.1 c.2 hcl

/-- After the first blur pass every in-bounds water cell with a land cell
in its window has value at least (23/25)/9 = 23/225 which exceeds 0.1: some
window cell is a land cell orthogonally adjacent to water. -/
theorem pass1_water_near_land_lb (O : MathOracle) (g : Grid)
    (hs1 : ∀ q : ℚ, 1 ≤ q → 1 ≤ O.sqrtFn q)
    (hsqOne : O.sqrtFn 1 = 1)
    (hexpOne : 23/25 ≤ O.expFn (-FERTILITY_FALLOFF_RATE))
    (wx wy : Nat) (hwx : wx < g.width) (hwy : wy < g.height)
    (hw : (g.tile wx wy).isWater = true)
    (x y : Nat) (hmem : (x, y) ∈ windowCells g.width g.height wx wy)
    (hland : (g.tile x y).isLand = true) :
    23/225 ≤ smoothOnce g.width g.height (baseFertilityMap O g) wx wy := by
  have hco := mem_windowCells.mp hmem
  have hkey : ∃ c0 ∈ windowCells g.width g.height wx wy,
      (23/25 : ℚ) ≤ baseFertilityMap O g c0.1 c0.2 := by
    have hne : ¬(x = wx ∧ y = wy) := by
      rintro ⟨rfl, rfl⟩
      rw [isWater_false_of_isLand hland] at hw
      exact Bool.false_ne_true hw
    rcases Nat.lt_or_ge (((x : Int) - wx).natAbs + ((y : Int) - wy).natAbs) 2 with hsum | hsum
    · have horth : ((wx : Int) - x).natAbs + ((wy : Int) - y).natAbs = 1 := by omega
      exact ⟨(x, y), hmem,
        base_land_orth_lb O g hs1 hsqOne hexpOne x y wx wy hwx hwy hw hland horth⟩
    · have hdx1 : ((x : Int) - wx).natAbs = 1 := by omega
      have hdy1 : ((y : Int) - wy).natAbs = 1 := by omega
      cases hbw : (g.tile x wy).isWater with
      | false =>
          refine ⟨(x, wy),
            mem_windowCells.mpr ⟨hco.1, hwy, by omega, by omega, by omega, by omega⟩, ?_⟩
          exact base_land_orth_lb O g hs1 hsqOne hexpOne x wy wx wy hwx hwy hw
            (isLand_of_isWater_false hbw) (by omega)
      | true =>
          exact ⟨(x, y), hmem,
            base_land_orth_lb O g hs1 hsqOne hexpOne x y x wy hco.1 hwy hbw hland
              (by omega)⟩
  obtain ⟨c0, hc0mem, hc0⟩ := hkey
  have h9 := smoothOnce_single_lb g.width g.height (baseFertilityMap O g) wx wy (23/25)
    c0 hc0mem (by norm_num) hc0 (fun c _ => base_nonneg O g c.1 c.2)
  have heq : (23/225 : ℚ) = (23/25) / 9 := by norm_num
  linarith

/-! ### Fertility-bound lemmas: the second pass and the generated grid -/

theorem pass2_land_lb (O : MathOracle) (g : Grid)
    (hs1 : ∀ q : ℚ, 1 ≤ q → 1 ≤ O.sqrtFn q)
    (hsqOne : O.sqrtFn 1 = 1)
    (hexpOne : 23/25 ≤ O.expFn (-FERTILITY_FALLOFF_RATE))
    (x y : Nat) (hx : x < g.width) (hy : y < g.height)
    (hland : (g.tile x y).isLand = true) :
    MIN_FERTILITY ≤
      smoothOnce g.width g.height (smoothOnce g.width g.height (baseFertilityMap O g)) x y := by
  refine smoothOnce_lb _ _ _ _ _ MIN_FERTILITY hx hy ?_
  intro c hc
  obtain ⟨a, b⟩ := c
  have hcb := mem_windowCells.mp hc
  cases hcl : (g.tile a b).isWater with
  | false =>
      exact pass1_land_lb O g hs1 hsqOne hexpOne a b hcb.1 hcb.2.1
        (isLand_of_isWater_false hcl)
  | true =>
      have hsymm : (x, y) ∈ windowCells g.width g.height a b := windowCells_symm hc hx hy
      have h23 := pass1_water_near_land_lb O g hs1 hsqOne hexpOne a b hcb.1 hcb.2.1 hcl
        x y hsymm hland
      have hlt : MIN_FERTILITY ≤ (23/225 : ℚ) := by norm_num [MIN_FERTILITY]
      linarith

theorem calculateFertilityMap_eq (O : MathOracle) (g : Grid) :
    calculateFertilityMap O g =
      smoothOnce g.width g.height (smoothOnce g.width g.height (baseFertilityMap O g)) :=
  rfl

/-- The pipeline tail from an arbitrary eroded heightmap: every land tile
of the finished grid carries fertility in [MIN_FERTILITY, MAX_FERTILITY]. -/
theorem createTiles_land_bounds (O : MathOracle) (hm : Map2) (width height : Nat)
    (hs1 : ∀ q : ℚ, 1 ≤ q → 1 ≤ O.sqrtFn q)
    (hsqOne : O.sqrtFn 1 = 1)
    (hexpOne : 23/25 ≤ O.expFn (-FERTILITY_FALLOFF_RATE))
    (x y : Nat) (hx : x < width) (hy : y < height)
    (hland : ((createTilesWithFertility hm
        (calculateFertilityMap O (heightmapToTilesSimple hm width height))
        width height).tile x y).isLand = true) :
    MIN_FERTILITY ≤ ((createTilesWithFertility hm
        (calculateFertilityMap O (heightmapToTilesSimple hm width height))
        width height).tile x y).getFertility ∧
      ((createTilesWithFertility hm
        (calculateFertilityMap O (heightmapToTilesSimple hm width height))
        width height).tile x y).getFertility ≤ MAX_FERTILITY := by
  simp only [createTilesWithFertility] at hland ⊢
  by_cases hcond : hm x y < SEA_LEVEL
  · rw [if_pos hcond] at hland
    exact absurd hland (by simp [Tile.mkWater, Tile.isLand])
  · rw [if_neg hcond] at hland ⊢
    have hg1land : ((heightmapToTilesSimple hm width height).tile x y).isLand = true := by
      simp only [heightmapToTilesSimple]
      rw [if_neg hcond]
      rfl
    have hfm1 : MIN_FERTILITY ≤
        calculateFertilityMap O (heightmapToTilesSimple hm width height) x y := by
      rw [calculateFertilityMap_eq]
      exact pass2_land_lb O (heightmapToTilesSimple hm width height)
        hs1 hsqOne hexpOne x y hx hy hg1land
    have hfm2 : calculateFertilityMap O (heightmapToTilesSimple hm width height) x y ≤ 1 := by
      rw [calculateFertilityMap_eq]
      exact smoothOnce_le_one_of _ _ _
        (fun a b => smoothOnce_le_one_of _ _ _ (fun a b => base_le_one O _ a b) a b) x y
    have h0 : (0 : ℚ) ≤
        calculateFertilityMap O (heightmapToTilesSimple hm width height) x y := by
      have : (0 : ℚ) ≤ MIN_FERTILITY := by norm_num [MIN_FERTILITY]
      linarith
    have hgf : (Tile.mkLand (x : Int) (y : Int)
        (calculateFertilityMap O (heightmapToTilesSimple hm width height) x y)).getFertility =
        calculateFertilityMap O (heightmapToTilesSimple hm width height) x y := by
      simp only [Tile.mkLand, Tile.getFertility]
      rw [min_eq_right hfm2, max_eq_right h0]
    rw [hgf]
    exact ⟨hfm1, by simpa [MAX_FERTILITY] using hfm2⟩

/-! ### Fertility bounds: concrete evaluation of the probe pipeline -/

theorem probe_randomValue : randomValue 42 0 0 = 688898847/1073741824 := by
  have e2 : ((((0:Int) + 42) + ((0:Int) + 42) * 57) * 8192 % (2 ^ 31 : Int)).toNat
      = 19955712 := by decide
  have e3 : ((((0:Int) + 42) + ((0:Int) + 42) * 57) % (2 ^ 31 : Int)).toNat = 2436 := by decide
  have e4 : (19955712 : Nat) ^^^ 2436 = 19958148 := by decide
  have e5 : ((19958148 : Nat) * (19958148 * 19958148 * 15731 + 789221) + 1376312589) % 2 ^ 31
      = 384842977 := by decide
  simp only [randomValue, e2, e3, e4, e5]
  norm_num

theorem probe_interpolate (a b t : ℚ) : interpolate probeOracle a b t = a := by
  simp [interpolate, probeOracle]

theorem probe_smoothNoise (x y : ℚ) :
    smoothNoise probeOracle 42 x y = randomValue 42 (pyInt x) (pyInt y) := by
  simp only [smoothNoise, probe_interpolate]

theorem pyInt_zero_div (s : ℚ) : pyInt (((0:Nat):ℚ)/s) = 0 := by
  norm_num [pyInt, Rat.floor_def']

theorem probe_hm00 : generateHeightmap probeOracle 42 1 1 0 0 = 1762640671/2147483648 := by
  simp only [generateHeightmap, octaves, List.map_cons, List.map_nil, List.sum_cons,
    List.sum_nil, List.foldl_cons, List.foldl_nil, probe_smoothNoise, pyInt_zero_div,
    probe_randomValue]
  norm_num

theorem probe_erosion00 :
    applyHydraulicErosion probeOracle 42 (generateHeightmap probeOracle 42 1 1) 1 1 0 0 =
      1762640671/2147483648 := by
  have h : applyHydraulicErosion probeOracle 42 (generateHeightmap probeOracle 42 1 1) 1 1 =
      clampHeightmap (generateHeightmap probeOracle 42 1 1) := rfl
  rw [h]
  simp only [clampHeightmap, probe_hm00]
  norm_num [min_def, max_def]

theorem probe_land :
    ((generateTerrain probeOracle (mkFactory (some 42)) 1 1).tile 0 0).isLand = true := by
  have hseed : (mkFactory (some 42)).seed = 42 := rfl
  simp only [generateTerrain, createTilesWithFertility, hseed]
  have hcond : ¬(applyHydraulicErosion probeOracle 42
      (generateHeightmap probeOracle 42 1 1) 1 1 0 0 < SEA_LEVEL) := by
    rw [probe_erosion00]
    norm_num [SEA_LEVEL]
  rw [if_neg hcond]
  rfl

/-- C2: every Land tile of the terrain returned by generate_terrain has
fertility between MIN_FERTILITY = 0.1 and MAX_FERTILITY = 1.0 inclusive,
including after the two box-blur smoothing passes.  The oracle hypotheses
are facts of the real functions: math.sqrt maps [1, ∞) into itself with
sqrt(1) = 1, and math.exp(-0.08) = 0.9231... is at least 23/25. -/
theorem fertility_bounds (O : MathOracle) (seed : Option Int) (width height : Nat)
    (hs1 : ∀ q : ℚ, 1 ≤ q → 1 ≤ O.sqrtFn q)
    (hsqOne : O.sqrtFn 1 = 1)
    (hexpOne : 23/25 ≤ O.expFn (-FERTILITY_FALLOFF_RATE))
    (x y : Nat) (hx : x < width) (hy : y < height)
    (hland : ((generateTerrain O (mkFactory seed) width height).tile x y).isLand = true) :
    MIN_FERTILITY ≤ ((generateTerrain O (mkFactory seed) width height).tile x y).getFertility ∧
      ((generateTerrain O (mkFactory seed) width height).tile x y).getFertility ≤
        MAX_FERTILITY :=
  createTiles_land_bounds O _ width height hs1 hsqOne hexpOne x y hx hy hland

/-- C2 witness: the probe oracle on a 1x1 grid with seed 42; cell (0, 0)
is land, discharging every hypothesis of the bound theorem concretely. -/
theorem fertility_bounds_witness :
    ((generateTerrain probeOracle (mkFactory (some 42)) 1 1).tile 0 0).isLand = true ∧
      (MIN_FERTILITY ≤
          ((generateTerrain probeOracle (mkFactory (some 42)) 1 1).tile 0 0).getFertility ∧
        ((generateTerrain probeOracle (mkFactory (some 42)) 1 1).tile 0 0).getFertility ≤
          MAX_FERTILITY) :=
  ⟨probe_land,
    fertility_bounds probeOracle (some 42) 1 1
      (fun _ _ => le_refl 1) rfl (le_refl _) 0 0 (by decide) (by decide) probe_land⟩

end EcoSim
